import Mathlib

/-!
# Verification of the offer extraction and ranking core of the scraping scripts

This development shallowly embeds the offer-parsing and offer-ranking engine
that is duplicated (with small per-retailer variations) across
`cromaSDoffers_enhanced.py`, `enhanced_flipkart_scraper_comprehensive.py`,
`enhanced_jiomart_scraper_comprehensive.py` and `enhanced_amazon_scraper.py`.

Modelling conventions:
* Python `float` values are modelled by `ℚ`.  Every numeric value that the
  extraction engine produces (parsed rupee figures, scores, prices) is exactly
  representable, and the order/arithmetic facts proved here hold for the
  binary floating point evaluation as well on the concrete inputs used.
* Python strings are Lean `String`s; the regular expression patterns used by
  the extractors are embedded into a small regex AST (`RE`) together with a
  backtracking matcher `mre`/`reSearch` that follows Python `re.search`
  semantics for the fragment the scrapers use: leftmost match, left-biased
  alternation, greedy / lazy repetition over single-character classes,
  numbered capturing groups, negative lookahead and word boundaries.
  `re.IGNORECASE` is modelled by case-insensitive character classes; `\s` is
  modelled as the ASCII whitespace set (all inputs in scope are ASCII + '₹').
* A Python `ZeroDivisionError` escaping `calculate_offer_score` is modelled by
  `Option`: `none` is an uncaught exception, `some` a normal return.
* The human-readable `note` strings produced by `generate_comprehensive_note`
  are presentation-only (they can raise no exception on the reachable inputs)
  and are not carried in the embedded records.
-/

namespace Scrape

/-! ## Character classes and basic string helpers -/

/-- `\d` -/
def isDig (c : Char) : Bool := c.isDigit

/-- `[\d,]` -/
def isDigComma (c : Char) : Bool := c.isDigit || c == ','

/-- `[\d.]` -/
def isDigDot (c : Char) : Bool := c.isDigit || c == '.'

/-- Python `\s` (ASCII part): space, tab, newline, carriage return, vertical
tab, form feed. -/
def isWs (c : Char) : Bool :=
  c == ' ' || c == '\t' || c == '\n' || c == '\r' || c == '\x0b' || c == '\x0c'

/-- Python `\w`: ASCII letters, digits and underscore (word characters used by
the `\b` assertions in the card-type patterns). -/
def isWordChar (c : Char) : Bool := c.isAlphanum || c == '_'

/-- `.` (any character but newline). -/
def isDot (c : Char) : Bool := c != '\n'

/-- `[^,\.;]` (character class used by the validity patterns). -/
def isNotPunct (c : Char) : Bool := !(c == ',' || c == '.' || c == ';')

/-- Case-insensitive single-character class: matches `x` whose lowercasing is
`c` (the embedded pattern literal is always stored lowercase).  Models
`re.IGNORECASE` literals. -/
def chCI (c : Char) : Char → Bool := fun x => x.toLower == c

/-- Exact single-character class. -/
def chEq (c : Char) : Char → Bool := fun x => x == c

/-- Python `str.lower()` restricted to ASCII (all table entries are ASCII). -/
def lowerL (s : List Char) : List Char := s.map Char.toLower

/-- Python's substring test `needle in hay` on character lists. -/
def substrL (needle hay : List Char) : Bool :=
  hay.tails.any (fun t => needle.isPrefixOf t)

/-- Python `needle in hay` for strings. -/
def pyIn (needle hay : String) : Bool := substrL needle.data hay.data

/-- `needle.lower() in hay.lower()`: case-insensitive containment test. -/
def containsCI (needle hay : String) : Bool :=
  substrL (lowerL needle.data) (lowerL hay.data)

/-! ## Regular expression AST

Only the constructs appearing in the scrapers' patterns are represented.
Repetition (`*`, `+`, `*?`) only ever applies to single-character classes in
those patterns, so the AST bakes that in, which keeps the matcher structurally
recursive. -/

/-- Regex abstract syntax for the fragment used by the scrapers. -/
inductive RE where
  /-- empty word -/
  | eps : RE
  /-- single-character class -/
  | cls (p : Char → Bool) : RE
  /-- concatenation -/
  | seq (a b : RE) : RE
  /-- left-biased alternation `a|b` -/
  | alt (a b : RE) : RE
  /-- greedy `X*` over a character class -/
  | star (p : Char → Bool) : RE
  /-- lazy `X*?` over a character class -/
  | starL (p : Char → Bool) : RE
  /-- numbered capturing group `( … )` -/
  | group (n : Nat) (a : RE) : RE
  /-- negative lookahead `(?! … )` -/
  | nla (a : RE) : RE
  /-- word boundary `\b` -/
  | wb : RE

/-- Captured groups: group number paired with captured characters; the most
recent capture of a group is first. -/
abbrev Caps := List (Nat × List Char)

/-- `match.group n`: most recent capture of group `n`. -/
def capGet (caps : Caps) (n : Nat) : Option (List Char) :=
  (caps.find? (fun pr => pr.1 == n)).map (fun pr => pr.2)

/-- Word-boundary test between the previously consumed character and the rest
of the input. -/
def atBoundary (prev : Option Char) (s : List Char) : Bool :=
  let l := match prev with | some c => isWordChar c | none => false
  let r := match s with | c :: _ => isWordChar c | [] => false
  l != r

/-- Greedy class repetition: try the longest run first, backtracking one
character at a time, finally the empty repetition. -/
def starG (p : Char → Bool) (prev : Option Char) (s : List Char) (caps : Caps)
    (k : Option Char → List Char → Caps → Option Caps) : Option Caps :=
  match s with
  | [] => k prev [] caps
  | c :: rest =>
    if p c then
      match starG p (some c) rest caps k with
      | some r => some r
      | none => k prev s caps
    else k prev s caps

/-- Lazy class repetition: try the empty repetition first, extending one
character at a time. -/
def starLz (p : Char → Bool) (prev : Option Char) (s : List Char) (caps : Caps)
    (k : Option Char → List Char → Caps → Option Caps) : Option Caps :=
  match k prev s caps with
  | some r => some r
  | none =>
    match s with
    | [] => none
    | c :: rest => if p c then starLz p (some c) rest caps k else none

/-- Backtracking matcher in continuation-passing style, following Python's
backtracking order (left-biased alternation, greedy/lazy repetition).  `prev`
is the character to the left of the current position (for `\b`), `k` receives
the position after the match of `r`. -/
def mre : RE → Option Char → List Char → Caps →
    (Option Char → List Char → Caps → Option Caps) → Option Caps
  | .eps, prev, s, caps, k => k prev s caps
  | .cls p, _, s, caps, k =>
    match s with
    | [] => none
    | c :: rest => if p c then k (some c) rest caps else none
  | .seq a b, prev, s, caps, k =>
    mre a prev s caps (fun p2 s2 c2 => mre b p2 s2 c2 k)
  | .alt a b, prev, s, caps, k =>
    match mre a prev s caps k with
    | some r => some r
    | none => mre b prev s caps k
  | .star p, prev, s, caps, k => starG p prev s caps k
  | .starL p, prev, s, caps, k => starLz p prev s caps k
  | .group n a, prev, s, caps, k =>
    mre a prev s caps
      (fun p2 s2 c2 => k p2 s2 ((n, s.take (s.length - s2.length)) :: c2))
  | .nla a, prev, s, caps, k =>
    match mre a prev s caps (fun _ _ c => some c) with
    | some _ => none
    | none => k prev s caps
  | .wb, prev, s, caps, k =>
    if atBoundary prev s then k prev s caps else none

/-- `re.search` scanning loop: attempt a match at each position from the left;
returns the captures of the first (leftmost, then backtracking-priority)
match. -/
def reSearchAux (r : RE) (prev : Option Char) (s : List Char) : Option Caps :=
  match mre r prev s [] (fun _ _ c => some c) with
  | some c => some c
  | none =>
    match s with
    | [] => none
    | c :: rest => reSearchAux r (some c) rest

/-- `re.search(r, s)`, returning the captured groups of the match if any. -/
def reSearch (r : RE) (s : List Char) : Option Caps := reSearchAux r none s

/-! ## Pattern combinators -/

/-- Case-insensitive literal string (stored lowercase). -/
def strRe (s : String) : RE :=
  (s.data.map (fun c => RE.cls (chCI c))).foldr RE.seq RE.eps

/-- `X+` (greedy) over a class. -/
def rePlus (p : Char → Bool) : RE := .seq (.cls p) (.star p)

/-- `a?` (greedy). -/
def reOpt (a : RE) : RE := .alt a .eps

/-- `(?:a₁|a₂|…)`, left-biased. -/
def alts : List RE → RE
  | [] => .eps
  | [a] => a
  | a :: rest => .alt a (alts rest)

/-- Concatenation of a token list. -/
def cat : List RE → RE
  | [] => .eps
  | [a] => a
  | a :: rest => .seq a (cat rest)

/-- `\s+` -/
def wsP : RE := rePlus isWs

/-- `\s*` -/
def wsS : RE := .star isWs

/-- Body of the rupee-figure group `[\d,]+\.?\d*`. -/
def numBody : RE :=
  .seq (rePlus isDigComma) (.seq (reOpt (.cls (chEq '.'))) (.star isDig))

/-- `([\d,]+\.?\d*)` as capture group `n`. -/
def numCG (n : Nat) : RE := .group n numBody

/-- `([\d.]+)` as capture group `n` (percentage figure). -/
def pctCG (n : Nat) : RE := .group n (rePlus isDigDot)

/-- `(?:INR\s+|₹\s*)` -/
def inrRs : RE :=
  .alt (.seq (strRe "inr") wsP) (.seq (strRe "₹") wsS)

/-- `(?:INR\s+|₹\s*|Rs\.?\s*)` -/
def inrRsRs : RE :=
  alts [.seq (strRe "inr") wsP, .seq (strRe "₹") wsS,
        .seq (strRe "rs") (.seq (reOpt (.cls (chEq '.'))) wsS)]

/-! ## Python numeric conversion

`float(txt)` for the texts that can come out of the capture groups above:
optional digits, at most one dot, optional digits, at least one digit overall.
Any other shape raises `ValueError`, modelled as `none`. -/

/-- Digits to `Nat` (empty list allowed, value 0). -/
def digitsToNat (cs : List Char) : Nat :=
  cs.foldl (fun acc c => acc * 10 + (c.toNat - 48)) 0

/-- `float(cs)` for capture-group texts; `none` models `ValueError`. -/
def pyFloat (cs : List Char) : Option ℚ :=
  match cs.splitOn '.' with
  | [intp] =>
    if intp ≠ [] ∧ intp.all isDig then some (digitsToNat intp : ℚ) else none
  | [intp, frac] =>
    if (intp ≠ [] ∨ frac ≠ []) ∧ intp.all isDig ∧ frac.all isDig then
      some ((digitsToNat intp : ℚ) + (digitsToNat frac : ℚ) / (10 ^ frac.length : ℚ))
    else none
  | _ => none

/-- `float(cap.replace(',', ''))`. -/
def pyFloatOfCap (cs : List Char) : Option ℚ :=
  pyFloat (cs.filter (fun c => c != ','))

/-- `float(match.group(n).replace(',', ''))` with the surrounding
`try`/`except` of `extract_amount`: a conversion failure yields `0.0`. -/
def capValue (caps : Caps) (n : Nat) : ℚ :=
  match (capGet caps n).bind pyFloatOfCap with
  | some v => v
  | none => 0

/-- Try the patterns in order and return the captures of the first pattern
whose `re.search` matches (the shared loop shape of the extractors). -/
def tryPatterns (pats : List RE) (s : List Char) : Option Caps :=
  match pats with
  | [] => none
  | p :: rest =>
    match reSearch p s with
    | some c => some c
    | none => tryPatterns rest s

end Scrape

namespace Scrape

/-! ## Generic list machinery shared by the four analyzer variants -/

/-- Left-to-right effectful map over `Option` (models a Python loop that can
raise partway through). -/
def mapMO (f : α → Option β) : List α → Option (List β)
  | [] => some []
  | a :: rest =>
    match f a with
    | none => none
    | some b =>
      match mapMO f rest with
      | none => none
      | some bs => some (b :: bs)

/-- Insert `x` before the first element `y` with `le x y` (stable insertion). -/
def insertSorted (le : α → α → Bool) (x : α) : List α → List α
  | [] => [x]
  | y :: ys => if le x y then x :: y :: ys else y :: insertSorted le x ys

/-- Stable insertion sort; with `le x y := key y ≤ key x` this is Python's
stable `sort(key=…, reverse=True)`. -/
def sortStable (le : α → α → Bool) : List α → List α
  | [] => []
  | x :: xs => insertSorted le x (sortStable le xs)

/-- Stable descending sort of score/record pairs (Python
`list.sort(key=lambda x: x['score'], reverse=True)`). -/
def sortPairsDesc {α : Type} (l : List (ℚ × α)) : List (ℚ × α) :=
  sortStable (fun a b => decide (b.1 ≤ a.1)) l

/-- Python string `<` (lexicographic by code point). -/
def charListLt : List Char → List Char → Bool
  | [], [] => false
  | [], _ :: _ => true
  | _ :: _, [] => false
  | a :: as_, b :: bs => if a == b then charListLt as_ bs else decide (a < b)

/-- `a ≤ b` on strings, Python order. -/
def strLe (a b : String) : Bool := a == b || charListLt a.data b.data

/-- Python `set.add` modelled on a duplicate-free list (membership is what the
final `sorted(list(found_banks))` consumes, so the intermediate order is
irrelevant). -/
def setAdd (acc : List String) (b : String) : List String :=
  if acc.contains b then acc else acc ++ [b]

/-- `dict.get(key, default)` on an association list. -/
def dictGet (table : List (String × ℚ)) (key : String) (dflt : ℚ) : ℚ :=
  match table.find? (fun pr => pr.1 == key) with
  | some pr => pr.2
  | none => dflt

/-- Python `str.strip()`: drop leading and trailing whitespace. -/
def pyStrip (s : String) : String :=
  String.mk (((s.data.dropWhile Char.isWhitespace).reverse.dropWhile
    Char.isWhitespace).reverse)

/-- Python `min(a, b)` on floats. -/
def pyMin (a b : ℚ) : ℚ := if a ≤ b then a else b

/-- Python `max(a, b)` on floats. -/
def pyMax (a b : ℚ) : ℚ := if b ≤ a then a else b

/-- `pyMin` is the lattice `min`. -/
theorem pyMin_eq_min (a b : ℚ) : pyMin a b = min a b := by
  rw [pyMin, min_def]

/-- `pyMax` is the lattice `max`. -/
theorem pyMax_eq_max (a b : ℚ) : pyMax a b = max a b := by
  rw [pyMax, max_def]
  rcases le_total a b with h | h
  · rcases eq_or_lt_of_le h with rfl | hlt
    · simp
    · rw [if_pos h, if_neg (not_le_of_lt hlt)]
  · rcases eq_or_lt_of_le h with rfl | hlt
    · simp
    · rw [if_pos h, if_neg (not_le_of_lt hlt)]

/-- `any(keyword in text for keyword in ks)`. -/
def anyKey (ks : List String) (hay : List Char) : Bool :=
  ks.any (fun k => substrL k.data hay)

/-- Truthiness of a Python `Optional[float]` (`None` and `0.0` are falsy). -/
def qTruthy : Option ℚ → Bool
  | some q => decide (q ≠ 0)
  | none => false

/-- Truthiness of a Python `Optional[str]` (`None` and `""` are falsy). -/
def sTruthy : Option String → Bool
  | some s => s ≠ ""
  | none => false

/-- One raw element of the Python `offers_data` list: either a dict with the
two relevant keys (either of which may be missing) or some non-dict value,
which `rank_offers` filters out with `isinstance(offer, dict)`. -/
structure RawOffer where
  card_type : Option String := none
  offer_description : Option String := none
deriving DecidableEq

/-- An element of the input list (`dict` or not). -/
inductive RawItem where
  | dict (r : RawOffer) : RawItem
  | nondict : RawItem
deriving DecidableEq

/-- `isinstance(offer, dict)` filter support. -/
def RawItem.asDict : RawItem → Option RawOffer
  | .dict r => some r
  | .nondict => none

/-! ## The shared regular-expression patterns

Each definition is one pattern string from the Python sources (they are
textually identical across the variants that use them); the source regex is
quoted in the comment.  The percentage-with-cap patterns are written as
`front ⬝ (?:INR\s+|₹\s*) ⬝ (cap group)` so that the unreachability argument
(claim C10) can peel off the trailing currency figure. -/

namespace Pat

/-- `(?:Additional\s+)?[Ff]lat\s+(?:INR\s+|₹\s*)([\d,]+\.?\d*)` -/
def flat1 : RE :=
  .seq (reOpt (.seq (strRe "additional") wsP))
    (.seq (strRe "flat") (.seq wsP (.seq inrRs (numCG 1))))

/-- `(?:Additional\s+)?(?:INR\s+|₹\s*)([\d,]+\.?\d*)\s+(?:Instant\s+)?Discount` -/
def flat2 : RE :=
  .seq (reOpt (.seq (strRe "additional") wsP))
    (.seq inrRs (.seq (numCG 1)
      (.seq wsP (.seq (reOpt (.seq (strRe "instant") wsP)) (strRe "discount")))))

/-- `(?:Get\s+)?(?:INR\s+|₹\s*)([\d,]+\.?\d*)\s+(?:off|discount)` -/
def flat3 : RE :=
  .seq (reOpt (.seq (strRe "get") wsP))
    (.seq inrRs (.seq (numCG 1)
      (.seq wsP (alts [strRe "off", strRe "discount"]))))

/-- `(?:Save\s+)?(?:INR\s+|₹\s*)([\d,]+\.?\d*)` -/
def flat4 : RE :=
  .seq (reOpt (.seq (strRe "save") wsP)) (.seq inrRs (numCG 1))

/-- `₹\s*([\d,]+\.?\d*)` -/
def flat5 : RE := .seq (strRe "₹") (.seq wsS (numCG 1))

/-- `Rs\.?\s*([\d,]+\.?\d*)` -/
def flat6 : RE :=
  .seq (strRe "rs") (.seq (reOpt (.cls (chEq '.'))) (.seq wsS (numCG 1)))

/-- `INR\s*([\d,]+\.?\d*)` -/
def flat7 : RE := .seq (strRe "inr") (.seq wsS (numCG 1))

/-- Front of `([\d.]+)%\s+(?:Instant\s+)?Discount\s+up\s+to\s+…` -/
def cap1front : RE :=
  cat [pctCG 1, .cls (chEq '%'), wsP, reOpt (.seq (strRe "instant") wsP),
       strRe "discount", wsP, strRe "up", wsP, strRe "to", wsP]

/-- `([\d.]+)%\s+(?:Instant\s+)?Discount\s+up\s+to\s+(?:INR\s+|₹\s*)([\d,]+\.?\d*)` -/
def cap1 : RE := .seq cap1front (.seq inrRs (numCG 2))

/-- Front of `Up\s+to\s+([\d.]+)%\s+(?:off|discount).*?(?:max|maximum|up\s+to)\s+…` -/
def cap2front : RE :=
  cat [strRe "up", wsP, strRe "to", wsP, pctCG 1, .cls (chEq '%'), wsP,
       alts [strRe "off", strRe "discount"], .starL isDot,
       alts [strRe "max", strRe "maximum", cat [strRe "up", wsP, strRe "to"]], wsP]

/-- `Up\s+to\s+([\d.]+)%\s+(?:off|discount).*?(?:max|maximum|up\s+to)\s+(?:INR\s+|₹\s*)([\d,]+\.?\d*)` -/
def cap2 : RE := .seq cap2front (.seq inrRs (numCG 2))

/-- Front of `([\d.]+)%\s+(?:off|discount).*?(?:capped\s+at|maximum)\s+…` -/
def cap3front : RE :=
  cat [pctCG 1, .cls (chEq '%'), wsP, alts [strRe "off", strRe "discount"],
       .starL isDot,
       alts [cat [strRe "capped", wsP, strRe "at"], strRe "maximum"], wsP]

/-- `([\d.]+)%\s+(?:off|discount).*?(?:capped\s+at|maximum)\s+(?:INR\s+|₹\s*)([\d,]+\.?\d*)` -/
def cap3 : RE := .seq cap3front (.seq inrRs (numCG 2))

/-- `(?:Get\s+)?(?:INR\s+|₹\s*)([\d,]+\.?\d*)\s+(?:cashback|cash\s+back)` -/
def cash1 : RE :=
  .seq (reOpt (.seq (strRe "get") wsP))
    (.seq inrRs (.seq (numCG 1)
      (.seq wsP (alts [strRe "cashback", cat [strRe "cash", wsP, strRe "back"]]))))

/-- `(?:Earn\s+)?(?:INR\s+|₹\s*)([\d,]+\.?\d*)\s+(?:cashback|cash\s+back)` -/
def cash2 : RE :=
  .seq (reOpt (.seq (strRe "earn") wsP))
    (.seq inrRs (.seq (numCG 1)
      (.seq wsP (alts [strRe "cashback", cat [strRe "cash", wsP, strRe "back"]]))))

/-- `(?:up\s+to|upto)\s+([\d.]+)%` -/
def pct1 : RE :=
  cat [alts [cat [strRe "up", wsP, strRe "to"], strRe "upto"], wsP,
       pctCG 1, .cls (chEq '%')]

/-- `([\d.]+)%\s+(?:off|discount)(?!\s+up\s+to)` -/
def pct2 : RE :=
  cat [pctCG 1, .cls (chEq '%'), wsP, alts [strRe "off", strRe "discount"],
       .nla (cat [wsP, strRe "up", wsP, strRe "to"])]

/-- `get\s+([\d.]+)%\s+(?:off|discount)` -/
def pct3 : RE :=
  cat [strRe "get", wsP, pctCG 1, .cls (chEq '%'), wsP,
       alts [strRe "off", strRe "discount"]]

/-- `save\s+([\d.]+)%` -/
def pct4 : RE := cat [strRe "save", wsP, pctCG 1, .cls (chEq '%')]

/-- `orders?` / `purchases?` / `transactions?`-style optional plural. -/
def plural (s : String) : RE := .seq (strRe s) (reOpt (.cls (chCI 's')))

/-- `(?:of\s+|above\s+|worth\s+)` -/
def ofAboveWorth : RE :=
  alts [.seq (strRe "of") wsP, .seq (strRe "above") wsP, .seq (strRe "worth") wsP]

/-- `(?:Mini|Minimum)\s+purchase\s+value\s+(?:of\s+)?〈cur〉([\d,]+\.?\d*)`;
`cur` is `(?:INR\s+|₹\s*|Rs\.?\s*)` in the Croma/Flipkart/JioMart sources and
`(?:INR\s+|₹\s*)` in the Amazon source. -/
def minSp1 (cur : RE) : RE :=
  cat [alts [strRe "mini", strRe "minimum"], wsP, strRe "purchase", wsP,
       strRe "value", wsP, reOpt (.seq (strRe "of") wsP), cur, numCG 1]

/-- `(?:Mini|Minimum)\s+(?:purchase|spend|transaction)\s+(?:of\s+|value\s+)?〈cur〉(…)` -/
def minSp2 (cur : RE) : RE :=
  cat [alts [strRe "mini", strRe "minimum"], wsP,
       alts [strRe "purchase", strRe "spend", strRe "transaction"], wsP,
       reOpt (alts [.seq (strRe "of") wsP, .seq (strRe "value") wsP]), cur, numCG 1]

/-- `min(?:imum)?\s+(?:purchase|spend|transaction)\s+(?:of\s+|value\s+)?〈cur〉(…)` -/
def minSp3 (cur : RE) : RE :=
  cat [strRe "min", reOpt (strRe "imum"), wsP,
       alts [strRe "purchase", strRe "spend", strRe "transaction"], wsP,
       reOpt (alts [.seq (strRe "of") wsP, .seq (strRe "value") wsP]), cur, numCG 1]

/-- `valid\s+on\s+(?:orders?|purchases?)\s+(?:of\s+|above\s+|worth\s+)〈cur〉(…)` -/
def minSp4 (cur : RE) : RE :=
  cat [strRe "valid", wsP, strRe "on", wsP,
       alts [plural "order", plural "purchase"], wsP, ofAboveWorth, cur, numCG 1]

/-- `applicable\s+on\s+(?:purchases?|orders?|transactions?)\s+(?:of\s+|above\s+|worth\s+)〈cur〉(…)` -/
def minSp5 (cur : RE) : RE :=
  cat [strRe "applicable", wsP, strRe "on", wsP,
       alts [plural "purchase", plural "order", plural "transaction"], wsP,
       ofAboveWorth, cur, numCG 1]

/-- `(?:on\s+)?(?:orders?|purchases?|spending)\s+(?:of\s+|above\s+|worth\s+)〈cur〉(…)\s+(?:or\s+more|and\s+above)` -/
def minSp6 (cur : RE) : RE :=
  cat [reOpt (.seq (strRe "on") wsP),
       alts [plural "order", plural "purchase", strRe "spending"], wsP,
       ofAboveWorth, cur, numCG 1, wsP,
       alts [cat [strRe "or", wsP, strRe "more"],
             cat [strRe "and", wsP, strRe "above"]]]

/-- `(?:minimum|min)\s+(?:spend|purchase|order)\s*:\s*〈cur〉(…)` -/
def minSp7 (cur : RE) : RE :=
  cat [alts [strRe "minimum", strRe "min"], wsP,
       alts [strRe "spend", strRe "purchase", strRe "order"], wsS,
       .cls (chEq ':'), wsS, cur, numCG 1]

/-- `(?:spend|purchase|order)\s+(?:minimum|min|at\s+least)\s+〈cur〉(…)` -/
def minSp8 (cur : RE) : RE :=
  cat [alts [strRe "spend", strRe "purchase", strRe "order"], wsP,
       alts [strRe "minimum", strRe "min", cat [strRe "at", wsP, strRe "least"]],
       wsP, cur, numCG 1]

/-- `([^,\.;]+)` as group 1. -/
def tailCG : RE := .group 1 (rePlus isNotPunct)

/-- `valid\s+(?:till|until|up\s+to)\s+([^,\.;]+)` -/
def val1 : RE :=
  cat [strRe "valid", wsP,
       alts [strRe "till", strRe "until", cat [strRe "up", wsP, strRe "to"]],
       wsP, tailCG]

/-- `offer\s+valid\s+(?:till|until|up\s+to)\s+([^,\.;]+)` -/
def val2 : RE := cat [strRe "offer", wsP, val1]

/-- `expires?\s+(?:on|by)?\s+([^,\.;]+)` -/
def val3 : RE :=
  cat [strRe "expire", reOpt (.cls (chCI 's')), wsP,
       reOpt (alts [strRe "on", strRe "by"]), wsP, tailCG]

/-- `valid\s+(?:from|between).*?(?:to|till|until)\s+([^,\.;]+)` -/
def val4 : RE :=
  cat [strRe "valid", wsP, alts [strRe "from", strRe "between"], .starL isDot,
       alts [strRe "to", strRe "till", strRe "until"], wsP, tailCG]

/-- `(?:validity|valid)\s*:\s*([^,\.;]+)` -/
def val5 : RE :=
  cat [alts [strRe "validity", strRe "valid"], wsS, .cls (chEq ':'), wsS, tailCG]

/-- `\bcredit\s+card\b` -/
def cred1 : RE := cat [.wb, strRe "credit", wsP, strRe "card", .wb]

/-- `\bcc\b` -/
def cred2 : RE := cat [.wb, strRe "cc", .wb]

/-- `\bcredit\b.*\bcard\b` -/
def cred3 : RE :=
  cat [.wb, strRe "credit", .wb, .star isDot, .wb, strRe "card", .wb]

/-- `\bmaster\s+card\b` -/
def cred4 : RE := cat [.wb, strRe "master", wsP, strRe "card", .wb]

/-- `\bvisa\s+card\b.*\bcredit\b` -/
def cred5 : RE :=
  cat [.wb, strRe "visa", wsP, strRe "card", .wb, .star isDot,
       .wb, strRe "credit", .wb]

/-- `\bdebit\s+card\b` -/
def deb1 : RE := cat [.wb, strRe "debit", wsP, strRe "card", .wb]

/-- `\bdc\b` -/
def deb2 : RE := cat [.wb, strRe "dc", .wb]

/-- `\bdebit\b.*\bcard\b` -/
def deb3 : RE :=
  cat [.wb, strRe "debit", .wb, .star isDot, .wb, strRe "card", .wb]

/-- `\bvisa\s+card\b.*\bdebit\b` -/
def deb4 : RE :=
  cat [.wb, strRe "visa", wsP, strRe "card", .wb, .star isDot,
       .wb, strRe "debit", .wb]

/-- `\bmaster\s+card\b.*\bdebit\b` -/
def deb5 : RE :=
  cat [.wb, strRe "master", wsP, strRe "card", .wb, .star isDot,
       .wb, strRe "debit", .wb]

/-- `\bcard\b` -/
def cardWord : RE := cat [.wb, strRe "card", .wb]

/-- The credit-pattern family (same list in Croma/Amazon/JioMart sources). -/
def creditPats : List RE := [cred1, cred2, cred3, cred4, cred5]

/-- The debit-pattern family. -/
def debitPats : List RE := [deb1, deb2, deb3, deb4, deb5]

end Pat

/-- The flat-discount pattern tier shared verbatim by the Croma, Flipkart and
JioMart `extract_amount`s. -/
def flatPatterns7 : List RE :=
  [Pat.flat1, Pat.flat2, Pat.flat3, Pat.flat4, Pat.flat5, Pat.flat6, Pat.flat7]

/-- The percentage-with-cap tier of the Croma and JioMart `extract_amount`s. -/
def capPatterns3 : List RE := [Pat.cap1, Pat.cap2, Pat.cap3]

/-- The percentage-with-cap tier of the Flipkart `extract_amount`. -/
def capPatterns2 : List RE := [Pat.cap1, Pat.cap2]

/-- The cashback tier (Croma/JioMart/Amazon). -/
def cashPatterns : List RE := [Pat.cash1, Pat.cash2]

/-- Shared card-type extractor (textually identical in the Croma, Amazon and
JioMart sources; Flipkart has none): `extract_card_type`. -/
def extract_card_type (description : String) : Option String :=
  let dl := lowerL description.data
  let credit := Pat.creditPats.any (fun p => (reSearch p dl).isSome)
  let debit := Pat.debitPats.any (fun p => (reSearch p dl).isSome)
  if credit then
    if debit then some "Credit/Debit" else some "Credit"
  else if debit then some "Debit"
  else if (reSearch Pat.cardWord dl).isSome then
    if ["premium", "rewards", "cashback", "points"].any
        (fun w => substrL w.data dl) then some "Credit"
    else if substrL "atm".data dl then some "Debit"
    else none
  else none

/-- Card-provider list (same list in Croma and Amazon; Flipkart's shorter list
is not consulted by any claim). -/
def cardProviders : List String :=
  ["Visa", "Mastercard", "RuPay", "American Express", "Amex",
   "Diners Club", "Discover", "UnionPay", "JCB", "Maestro",
   "Cirrus", "PLUS"]

/-- Shared `extract_card_provider` loop (Croma/Amazon): direct substring hit
wins, with the `master`/`rupay` special cases checked inside the same
iteration. -/
def extract_card_provider (description : String) : Option String :=
  let dl := lowerL description.data
  go cardProviders dl
where
  go : List String → List Char → Option String
  | [], _ => none
  | p :: rest, dl =>
    if substrL (lowerL p.data) dl then some p
    else if p == "Mastercard" && substrL "master".data dl then some "Mastercard"
    else if p == "RuPay" && substrL "rupay".data dl then some "RuPay"
    else go rest dl

end Scrape

namespace Scrape

/-! ## Croma variant (`cromaSDoffers_enhanced.py`, class `CromaOfferAnalyzer`) -/

namespace Croma

/-- `self.bank_scores` (insertion order preserved; it drives the stable
length-descending sort of the direct-match tier). -/
def bank_scores : List (String × ℚ) :=
  [("SBI", 75), ("State Bank of India", 75), ("PNB", 72),
   ("Punjab National Bank", 72), ("BoB", 70), ("Bank of Baroda", 70),
   ("Canara Bank", 68), ("Union Bank of India", 65), ("Indian Bank", 65),
   ("Bank of India", 65), ("UCO Bank", 62), ("Indian Overseas Bank", 62),
   ("IOB", 62), ("Central Bank of India", 62), ("Bank of Maharashtra", 60),
   ("Punjab & Sind Bank", 60),
   ("HDFC", 85), ("HDFC Bank", 85), ("ICICI", 90), ("ICICI Bank", 90),
   ("Axis", 80), ("Axis Bank", 80), ("Kotak", 70), ("Kotak Mahindra Bank", 70),
   ("IndusInd Bank", 68), ("Yes Bank", 60), ("IDFC FIRST Bank", 65),
   ("IDFC", 65), ("Federal Bank", 63), ("South Indian Bank", 60),
   ("RBL Bank", 62), ("DCB Bank", 60), ("Tamilnad Mercantile Bank", 58),
   ("TMB", 58), ("Karur Vysya Bank", 58), ("CSB Bank", 58),
   ("City Union Bank", 58), ("Bandhan Bank", 60), ("Jammu & Kashmir Bank", 58),
   ("AU Small Finance Bank", 65), ("AU Bank", 65),
   ("Equitas Small Finance Bank", 62), ("Equitas", 62),
   ("Ujjivan Small Finance Bank", 60), ("Ujjivan", 60),
   ("Suryoday Small Finance Bank", 58), ("ESAF Small Finance Bank", 58),
   ("Fincare Small Finance Bank", 58), ("Jana Small Finance Bank", 58),
   ("North East Small Finance Bank", 58), ("Capital Small Finance Bank", 58),
   ("Unity Small Finance Bank", 58), ("Shivalik Small Finance Bank", 58),
   ("Citi", 80), ("Citibank", 80), ("HSBC", 78), ("Standard Chartered", 75),
   ("Deutsche Bank", 75), ("Barclays Bank", 75), ("DBS Bank", 72),
   ("JP Morgan Chase Bank", 75), ("Bank of America", 75),
   ("Saraswat Co-operative Bank", 60), ("Saraswat Bank", 60),
   ("Shamrao Vithal Co-operative Bank", 55), ("PMC Bank", 50),
   ("TJSB Sahakari Bank", 55), ("Amex", 85), ("American Express", 85)]

/-- `self.bank_name_patterns` (first tier of `extract_bank`). -/
def bank_name_patterns : List (String × List String) :=
  [("SBI", ["SBI", "State Bank", "State Bank of India"]),
   ("HDFC", ["HDFC", "HDFC Bank"]),
   ("ICICI", ["ICICI", "ICICI Bank"]),
   ("Axis", ["Axis", "Axis Bank"]),
   ("Kotak", ["Kotak", "Kotak Mahindra"]),
   ("Yes Bank", ["Yes Bank", "YES Bank"]),
   ("IDFC", ["IDFC", "IDFC FIRST", "IDFC Bank"]),
   ("IndusInd", ["IndusInd", "IndusInd Bank"]),
   ("Federal", ["Federal", "Federal Bank"]),
   ("RBL", ["RBL", "RBL Bank"]),
   ("Citi", ["Citi", "Citibank", "CitiBank"]),
   ("HSBC", ["HSBC"]),
   ("Standard Chartered", ["Standard Chartered", "StanChart", "SC Bank"]),
   ("AU Bank", ["AU Bank", "AU Small Finance", "AU"]),
   ("Equitas", ["Equitas", "Equitas Bank"]),
   ("Ujjivan", ["Ujjivan", "Ujjivan Bank"]),
   ("PNB", ["PNB", "Punjab National Bank"]),
   ("BoB", ["BoB", "Bank of Baroda", "Baroda"]),
   ("Canara", ["Canara", "Canara Bank"]),
   ("Union Bank", ["Union Bank", "Union Bank of India"]),
   ("Indian Bank", ["Indian Bank"]),
   ("Bank of India", ["Bank of India"]),
   ("UCO Bank", ["UCO", "UCO Bank"]),
   ("Indian Overseas Bank", ["IOB", "Indian Overseas"]),
   ("Central Bank", ["Central Bank", "Central Bank of India"]),
   ("Bank of Maharashtra", ["Bank of Maharashtra", "Maharashtra Bank"]),
   ("Amex", ["Amex", "American Express"]),
   ("DBS", ["DBS", "DBS Bank"])]

/-- `bank_variations` (third tier of `extract_bank`, local to the function). -/
def bank_variations : List (String × String) :=
  [("hdfc", "HDFC"), ("icici", "ICICI"), ("axis", "Axis"), ("sbi", "SBI"),
   ("kotak", "Kotak"), ("yes bank", "Yes Bank"), ("yes", "Yes Bank"),
   ("idfc", "IDFC"), ("indusind", "IndusInd Bank"),
   ("federal", "Federal Bank"), ("rbl", "RBL Bank"), ("citi", "Citi"),
   ("citibank", "Citi"), ("hsbc", "HSBC"),
   ("standard chartered", "Standard Chartered"), ("au bank", "AU Bank"),
   ("au", "AU Bank"), ("equitas", "Equitas"), ("ujjivan", "Ujjivan"),
   ("pnb", "PNB"), ("punjab national bank", "PNB"), ("bob", "BoB"),
   ("bank of baroda", "BoB"), ("baroda", "BoB"), ("canara", "Canara Bank"),
   ("canara bank", "Canara Bank"), ("union bank", "Union Bank of India"),
   ("indian bank", "Indian Bank"), ("bank of india", "Bank of India"),
   ("uco", "UCO Bank"), ("uco bank", "UCO Bank"),
   ("iob", "Indian Overseas Bank"),
   ("indian overseas bank", "Indian Overseas Bank"),
   ("central bank", "Central Bank of India"), ("amex", "Amex"),
   ("american express", "American Express")]

/-- `self.default_bank_score = 70` -/
def default_bank_score : ℚ := 70

/-- `extract_amount`: flat tier, then percentage-with-cap tier, then cashback
tier; any `float` conversion failure is caught by the surrounding
`try`/`except` and yields `0.0`. -/
def extract_amount (description : String) : ℚ :=
  match tryPatterns flatPatterns7 description.data with
  | some caps => capValue caps 1
  | none =>
    match tryPatterns capPatterns3 description.data with
    | some caps => capValue caps 2
    | none =>
      match tryPatterns cashPatterns description.data with
      | some caps => capValue caps 1
      | none => 0

/-- `extract_percentage`: the four cap-free percentage patterns; conversion
failure is caught and yields `None`. -/
def extract_percentage (description : String) : Option ℚ :=
  match tryPatterns [Pat.pct1, Pat.pct2, Pat.pct3, Pat.pct4] description.data with
  | some caps => (capGet caps 1).bind pyFloat
  | none => none

/-- `extract_bank`: three-tier fallback collecting all hits into a set, then
alphabetically sorted and comma-joined. -/
def extract_bank (description : String) : Option String :=
  if description = "" then none
  else
    let dl := lowerL description.data
    let tier1 := bank_name_patterns.foldl
      (fun acc kp =>
        if kp.2.any (fun p => substrL (lowerL p.data) dl) then setAdd acc kp.1
        else acc) []
    let tier2 :=
      if tier1 = [] then
        (sortStable (fun a b => decide (b.length ≤ a.length))
            (bank_scores.map (fun pr => pr.1))).foldl
          (fun acc b => if substrL (lowerL b.data) dl then setAdd acc b else acc)
          []
      else tier1
    let tier3 :=
      if tier2 = [] then
        bank_variations.foldl
          (fun acc vp => if substrL vp.1.data dl then setAdd acc vp.2 else acc)
          []
      else tier2
    if tier3 = [] then none
    else some (String.intercalate ", " (sortStable strLe tier3))

/-- `extract_validity`: first matching pattern's group, stripped. -/
def extract_validity (description : String) : Option String :=
  match tryPatterns [Pat.val1, Pat.val2, Pat.val3, Pat.val4, Pat.val5]
      description.data with
  | some caps => (capGet caps 1).map (fun cs => pyStrip (String.mk cs))
  | none => none

/-- The Croma/Flipkart/JioMart min-spend currency token
`(?:INR\s+|₹\s*|Rs\.?\s*)`. -/
def minSpendPatterns : List RE :=
  [Pat.minSp1 inrRsRs, Pat.minSp2 inrRsRs, Pat.minSp3 inrRsRs,
   Pat.minSp4 inrRsRs, Pat.minSp5 inrRsRs, Pat.minSp6 inrRsRs,
   Pat.minSp7 inrRsRs, Pat.minSp8 inrRsRs]

/-- `extract_min_spend`: first pattern whose match converts; a `ValueError`
on the captured group continues with the next pattern. -/
def extract_min_spend (description : String) : Option ℚ :=
  go minSpendPatterns description.data
where
  go : List RE → List Char → Option ℚ
  | [], _ => none
  | p :: rest, s =>
    match reSearch p s with
    | none => go rest s
    | some caps =>
      match (capGet caps 1).bind pyFloatOfCap with
      | some v => some v
      | none => go rest s

/-- `determine_offer_type`: title keywords first, then description keywords,
else the raw title or the retailer default. -/
def determine_offer_type (card_title description : String) : String :=
  if anyKey ["bank offer", "instant discount", "card offer"]
      (lowerL card_title.data) then "Bank Offer"
  else if anyKey ["no cost emi", "no-cost emi", "emi"]
      (lowerL card_title.data) then "No Cost EMI"
  else if anyKey ["cashback", "cash back"] (lowerL card_title.data) then
    "Cashback"
  else if anyKey ["exchange offer", "exchange"] (lowerL card_title.data) then
    "Exchange Offer"
  else if anyKey ["partner offer", "partner"] (lowerL card_title.data) then
    "Partner Offers"
  else if anyKey ["bank", "credit card", "debit card"]
      (lowerL description.data) then "Bank Offer"
  else if anyKey ["emi", "no cost"] (lowerL description.data) then "No Cost EMI"
  else if card_title ≠ "" then card_title
  else "Croma Offer"

/-- The parsed `Offer` dataclass. -/
structure Offer where
  title : String
  description : String
  amount : ℚ
  type : String
  bank : Option String
  validity : Option String
  min_spend : Option ℚ
  is_instant : Bool
  card_type : Option String
  card_provider : Option String
  percentage : Option ℚ
deriving DecidableEq

/-- `parse_offer`. -/
def parse_offer (offer : RawOffer) : Offer :=
  let card_title := pyStrip (offer.card_type.getD "")
  let description := pyStrip (offer.offer_description.getD "")
  let offer_type := determine_offer_type card_title description
  let title :=
    if offer_type = "Bank Offer" then "Bank Offer"
    else if card_title = "" ∨
        ["summary", "", "croma offer"].contains (String.mk (lowerL card_title.data)) then
      offer_type
    else card_title
  { title := title
    description := description
    amount := extract_amount description
    type := offer_type
    bank := extract_bank description
    validity := extract_validity description
    min_spend := extract_min_spend description
    is_instant := substrL "instant".data (lowerL description.data) ||
      !(substrL "cashback".data (lowerL description.data))
    card_type := extract_card_type description
    card_provider := extract_card_provider description
    percentage := extract_percentage description }

/-- `calculate_offer_score`; `none` models the uncaught `ZeroDivisionError`
raised when a truthy `min_spend` exceeds a zero product price. -/
def calculate_offer_score (offer : Offer) (product_price : ℚ) : Option ℚ :=
  if offer.type ≠ "Bank Offer" then some 0
  else
    let base0 : ℚ := 80
    let base1 :=
      if product_price > 0 then
        match offer.percentage with
        | some p =>
          if p > 0 then base0 + pyMin (p * 2) 50
          else if offer.amount > 0 then
            base0 + pyMin ((offer.amount / product_price) * 100 * 2) 50
          else base0
        | none =>
          if offer.amount > 0 then
            base0 + pyMin ((offer.amount / product_price) * 100 * 2) 50
          else base0
      else base0
    let step2 : Option ℚ :=
      match offer.min_spend with
      | some m =>
        if m ≠ 0 ∧ m > product_price then
          if product_price = 0 then none
          else
            let penalty_percentage := ((m - product_price) / product_price) * 100
            if penalty_percentage > 50 then some 15
            else some (pyMax (base1 - penalty_percentage * (1/2)) 20)
        else if m ≤ product_price then
          let spend_ratio := if product_price > 0 then m / product_price else 0
          if spend_ratio ≤ 9/10 then some (base1 + (1 - spend_ratio) * 10)
          else some base1
        else some base1
      | none => some (base1 + 20)
    match step2 with
    | none => none
    | some base2 =>
      let base3 := if offer.is_instant then base2 + 5 else base2
      let base4 :=
        if sTruthy offer.bank then
          base3 + (dictGet bank_scores (offer.bank.getD "") default_bank_score - 70) / 2
        else base3 - 5
      let base5 :=
        if sTruthy offer.card_type then
          if offer.card_type.getD "" = "Credit" then base4 + 3
          else if offer.card_type.getD "" = "Credit/Debit" then base4 + 2
          else if offer.card_type.getD "" = "Debit" then base4 + 1
          else base4
        else base4
      let base6 :=
        if sTruthy offer.card_provider then
          base5 + dictGet
            [("Visa", 2), ("Mastercard", 2), ("RuPay", 3),
             ("American Express", 4), ("Amex", 4), ("Diners Club", 3)]
            (offer.card_provider.getD "") 1
        else base5
      some (pyMax 0 (pyMin 100 base6))

/-- The output record (one dict of the returned list); the `note` string is
presentation-only and not modelled. -/
structure RankedOffer where
  title : String
  description : String
  amount : ℚ
  percentage : Option ℚ
  bank : Option String
  validity : Option String
  min_spend : Option ℚ
  score : Option ℚ
  is_instant : Bool
  net_effective_price : ℚ
  is_applicable : Bool
  offer_type : String
  rank : Option Nat
  card_type : Option String
  card_provider : Option String
deriving DecidableEq

/-- Net effective price and applicability, as computed identically in the
bank-offer and other-offer loops of `rank_offers`. -/
def netAndApplicable (offer : Offer) (product_price : ℚ) : ℚ × Bool :=
  if qTruthy offer.min_spend ∧ product_price < offer.min_spend.getD 0 then
    (product_price, false)
  else
    match offer.percentage with
    | some p =>
      if p > 0 then
        (pyMax (product_price - (p / 100) * product_price) 0, true)
      else (pyMax (product_price - offer.amount) 0, true)
    | none => (pyMax (product_price - offer.amount) 0, true)

/-- One iteration of the bank-offer loop: score, net price, applicability and
the assembled record (rank filled in after sorting). -/
def mkScoredBank (product_price : ℚ) (offer : Offer) :
    Option (ℚ × RankedOffer) :=
  (calculate_offer_score offer product_price).map fun score =>
    let na := netAndApplicable offer product_price
    (score,
     { title := offer.title, description := offer.description,
       amount := offer.amount, percentage := offer.percentage,
       bank := offer.bank, validity := offer.validity,
       min_spend := offer.min_spend, score := some score,
       is_instant := offer.is_instant, net_effective_price := na.1,
       is_applicable := na.2, offer_type := "Bank Offer", rank := none,
       card_type := offer.card_type, card_provider := offer.card_provider })

/-- One iteration of the other-offer loop (no score, no rank). -/
def mkOther (product_price : ℚ) (offer : Offer) : RankedOffer :=
  let na := netAndApplicable offer product_price
  { title := offer.title, description := offer.description,
    amount := offer.amount, percentage := offer.percentage,
    bank := offer.bank, validity := offer.validity,
    min_spend := offer.min_spend, score := none,
    is_instant := offer.is_instant, net_effective_price := na.1,
    is_applicable := na.2, offer_type := offer.type, rank := none,
    card_type := offer.card_type, card_provider := offer.card_provider }

/-- `for idx, offer in enumerate(scored_bank_offers): offer['rank'] = idx + 1`. -/
def withRanks : Nat → List (ℚ × RankedOffer) → List RankedOffer
  | _, [] => []
  | n, p :: ps => { p.2 with rank := some n } :: withRanks (n + 1) ps

/-- `parsed_offers`: the dict-shaped inputs, parsed
(`[self.parse_offer(offer) for offer in offers_data if isinstance(offer, dict)]`). -/
def parsedOf (offers_data : List RawItem) : List Offer :=
  (offers_data.filterMap RawItem.asDict).map parse_offer

/-- `bank_offers`: the parsed offers of type Bank Offer. -/
def bankOf (offers_data : List RawItem) : List Offer :=
  (parsedOf offers_data).filter (fun o => o.type == "Bank Offer")

/-- `other_offers`: the remaining parsed offers. -/
def otherOf (offers_data : List RawItem) : List Offer :=
  (parsedOf offers_data).filter (fun o => o.type != "Bank Offer")

/-- `rank_offers`: score the bank offers (an exception aborts the whole
call), stably sort them by descending score, assign ranks 1.., then append
the other offers unranked. -/
def rank_offers (offers_data : List RawItem) (product_price : ℚ) :
    Option (List RankedOffer) :=
  match mapMO (mkScoredBank product_price) (bankOf offers_data) with
  | none => none
  | some prs =>
    some (withRanks 1 (sortPairsDesc prs) ++
      (otherOf offers_data).map (mkOther product_price))

end Croma

end Scrape

namespace Scrape

/-! ## Flipkart variant (`enhanced_flipkart_scraper_comprehensive.py`,
class `FlipkartOfferAnalyzer`) -/

namespace Flipkart

/-- `self.bank_scores`. -/
def bank_scores : List (String × ℚ) :=
  [("SBI", 75), ("State Bank of India", 75), ("PNB", 72),
   ("Punjab National Bank", 72), ("BoB", 70), ("Bank of Baroda", 70),
   ("Canara Bank", 68), ("Union Bank of India", 65), ("Indian Bank", 65),
   ("Bank of India", 65), ("UCO Bank", 62), ("Indian Overseas Bank", 62),
   ("IOB", 62), ("Central Bank of India", 62), ("Bank of Maharashtra", 60),
   ("Punjab & Sind Bank", 60),
   ("HDFC", 85), ("HDFC Bank", 85), ("ICICI", 90), ("ICICI Bank", 90),
   ("Axis", 80), ("Axis Bank", 80), ("Kotak", 70), ("Kotak Mahindra Bank", 70),
   ("IndusInd Bank", 68), ("Yes Bank", 60), ("IDFC FIRST Bank", 65),
   ("IDFC", 65), ("Federal Bank", 63), ("South Indian Bank", 60),
   ("RBL Bank", 62), ("DCB Bank", 60), ("Tamilnad Mercantile Bank", 58),
   ("TMB", 58), ("Karur Vysya Bank", 58), ("CSB Bank", 58),
   ("City Union Bank", 58), ("Bandhan Bank", 60), ("Jammu & Kashmir Bank", 58),
   ("AU Small Finance Bank", 65), ("AU Bank", 65),
   ("Equitas Small Finance Bank", 62), ("Equitas", 62),
   ("Ujjivan Small Finance Bank", 60), ("Ujjivan", 60),
   ("Citi", 80), ("Citibank", 80), ("HSBC", 78), ("Standard Chartered", 75),
   ("Deutsche Bank", 75), ("Barclays Bank", 75), ("DBS Bank", 72),
   ("JP Morgan Chase Bank", 75), ("Bank of America", 75),
   ("Amex", 85), ("American Express", 85)]

/-- `self.bank_name_patterns`. -/
def bank_name_patterns : List (String × List String) :=
  [("SBI", ["SBI", "State Bank", "State Bank of India"]),
   ("HDFC", ["HDFC", "HDFC Bank"]), ("ICICI", ["ICICI", "ICICI Bank"]),
   ("Axis", ["Axis", "Axis Bank"]), ("Kotak", ["Kotak", "Kotak Mahindra"]),
   ("Yes Bank", ["Yes Bank", "YES Bank"]),
   ("IDFC", ["IDFC", "IDFC FIRST", "IDFC Bank"]),
   ("IndusInd", ["IndusInd", "IndusInd Bank"]),
   ("Federal", ["Federal", "Federal Bank"]), ("RBL", ["RBL", "RBL Bank"]),
   ("Citi", ["Citi", "Citibank", "CitiBank"]), ("HSBC", ["HSBC"]),
   ("Standard Chartered", ["Standard Chartered", "StanChart", "SC Bank"]),
   ("AU Bank", ["AU Bank", "AU Small Finance", "AU"]),
   ("Equitas", ["Equitas", "Equitas Bank"])]

/-- `self.default_bank_score = 70` -/
def default_bank_score : ℚ := 70

/-- `extract_amount`: the same seven flat patterns, then two
percentage-with-cap patterns (no cashback tier in this variant). -/
def extract_amount (description : String) : ℚ :=
  match tryPatterns flatPatterns7 description.data with
  | some caps => capValue caps 1
  | none =>
    match tryPatterns capPatterns2 description.data with
    | some caps => capValue caps 2
    | none => 0

/-- `extract_bank`: first pattern-table hit wins; otherwise first hit in the
length-descending direct table.  (Unlike the Croma variant this returns a
single bank.) -/
def extract_bank (description : String) : Option String :=
  if description = "" then none
  else
    let dl := lowerL description.data
    match bank_name_patterns.find?
        (fun kp => kp.2.any (fun p => substrL (lowerL p.data) dl)) with
    | some kp => some kp.1
    | none =>
      (sortStable (fun a b => decide (b.length ≤ a.length))
          (bank_scores.map (fun pr => pr.1))).find?
        (fun b => substrL (lowerL b.data) dl)

/-- `extract_min_spend`: three patterns, `ValueError` continues. -/
def extract_min_spend (description : String) : Option ℚ :=
  go [Pat.minSp1 inrRsRs, Pat.minSp2 inrRsRs, Pat.minSp4 inrRsRs]
    description.data
where
  go : List RE → List Char → Option ℚ
  | [], _ => none
  | p :: rest, s =>
    match reSearch p s with
    | none => go rest s
    | some caps =>
      match (capGet caps 1).bind pyFloatOfCap with
      | some v => some v
      | none => go rest s

/-- The parsed `Offer` dataclass of this variant. -/
structure Offer where
  title : String
  description : String
  amount : ℚ
  type : String
  bank : Option String
  validity : Option String
  min_spend : Option ℚ
  is_instant : Bool
  card_type : Option String
  card_provider : Option String
deriving DecidableEq

/-- `parse_offer`: the title is the raw `card_type` value (default
`'Flipkart Offer'` only when the key is absent), the type comes from
description keywords only, and `is_instant` is just the `'instant'`
containment test. -/
def parse_offer (offer : RawOffer) : Offer :=
  let description := pyStrip (offer.offer_description.getD "")
  let title := pyStrip (offer.card_type.getD "Flipkart Offer")
  let dl := lowerL description.data
  let offer_type :=
    if substrL "bank".data dl || substrL "card".data dl then "Bank Offer"
    else if substrL "emi".data dl then "No Cost EMI"
    else if substrL "cashback".data dl then "Cashback"
    else if substrL "exchange".data dl then "Exchange Offer"
    else "Flipkart Offer"
  { title := title
    description := description
    amount := extract_amount description
    type := offer_type
    bank := extract_bank description
    validity := none
    min_spend := extract_min_spend description
    is_instant := substrL "instant".data dl
    card_type := none
    card_provider := none }

/-- `calculate_offer_score` (no instant/card-type/provider bonuses in this
variant); `none` models the `ZeroDivisionError` at zero price. -/
def calculate_offer_score (offer : Offer) (product_price : ℚ) : Option ℚ :=
  if offer.type ≠ "Bank Offer" then some 0
  else
    let base0 : ℚ := 80
    let base1 :=
      if product_price > 0 ∧ offer.amount > 0 then
        base0 + pyMin ((offer.amount / product_price) * 100 * 2) 50
      else base0
    let step2 : Option ℚ :=
      match offer.min_spend with
      | some m =>
        if m ≠ 0 ∧ m > product_price then
          if product_price = 0 then none
          else
            let penalty_percentage := ((m - product_price) / product_price) * 100
            if penalty_percentage > 50 then some 15
            else some (pyMax (base1 - penalty_percentage * (1/2)) 20)
        else if m ≤ product_price then
          let spend_ratio := if product_price > 0 then m / product_price else 0
          if spend_ratio ≤ 9/10 then some (base1 + (1 - spend_ratio) * 10)
          else some base1
        else some base1
      | none => some (base1 + 20)
    match step2 with
    | none => none
    | some base2 =>
      let base3 :=
        if sTruthy offer.bank then
          base2 + (dictGet bank_scores (offer.bank.getD "") default_bank_score - 70) / 2
        else base2 - 5
      some (pyMax 0 (pyMin 100 base3))

/-- Output record of this variant (`note` not modelled). -/
structure RankedOffer where
  title : String
  description : String
  amount : ℚ
  bank : Option String
  validity : Option String
  min_spend : Option ℚ
  score : Option ℚ
  is_instant : Bool
  net_effective_price : ℚ
  is_applicable : Bool
  offer_type : String
  rank : Option Nat
  card_type : Option String
  card_provider : Option String
deriving DecidableEq

/-- Net effective price and applicability (flat amount only). -/
def netAndApplicable (offer : Offer) (product_price : ℚ) : ℚ × Bool :=
  if qTruthy offer.min_spend ∧ product_price < offer.min_spend.getD 0 then
    (product_price, false)
  else (pyMax (product_price - offer.amount) 0, true)

/-- One iteration of the bank-offer loop. -/
def mkScoredBank (product_price : ℚ) (offer : Offer) :
    Option (ℚ × RankedOffer) :=
  (calculate_offer_score offer product_price).map fun score =>
    let na := netAndApplicable offer product_price
    (score,
     { title := offer.title, description := offer.description,
       amount := offer.amount, bank := offer.bank, validity := none,
       min_spend := offer.min_spend, score := some score,
       is_instant := offer.is_instant, net_effective_price := na.1,
       is_applicable := na.2, offer_type := "Bank Offer", rank := none,
       card_type := none, card_provider := none })

/-- One iteration of the other-offer loop. -/
def mkOther (product_price : ℚ) (offer : Offer) : RankedOffer :=
  let na := netAndApplicable offer product_price
  { title := offer.title, description := offer.description,
    amount := offer.amount, bank := offer.bank, validity := none,
    min_spend := offer.min_spend, score := none,
    is_instant := offer.is_instant, net_effective_price := na.1,
    is_applicable := na.2, offer_type := offer.type, rank := none,
    card_type := none, card_provider := none }

/-- Rank assignment after the stable descending sort. -/
def withRanks : Nat → List (ℚ × RankedOffer) → List RankedOffer
  | _, [] => []
  | n, p :: ps => { p.2 with rank := some n } :: withRanks (n + 1) ps

/-- `parsed_offers`: the dict-shaped inputs, parsed
(`[self.parse_offer(offer) for offer in offers_data if isinstance(offer, dict)]`). -/
def parsedOf (offers_data : List RawItem) : List Offer :=
  (offers_data.filterMap RawItem.asDict).map parse_offer

/-- `bank_offers`: the parsed offers of type Bank Offer. -/
def bankOf (offers_data : List RawItem) : List Offer :=
  (parsedOf offers_data).filter (fun o => o.type == "Bank Offer")

/-- `other_offers`: the remaining parsed offers. -/
def otherOf (offers_data : List RawItem) : List Offer :=
  (parsedOf offers_data).filter (fun o => o.type != "Bank Offer")

/-- `rank_offers`: score the bank offers (an exception aborts the whole
call), stably sort them by descending score, assign ranks 1.., then append
the other offers unranked. -/
def rank_offers (offers_data : List RawItem) (product_price : ℚ) :
    Option (List RankedOffer) :=
  match mapMO (mkScoredBank product_price) (bankOf offers_data) with
  | none => none
  | some prs =>
    some (withRanks 1 (sortPairsDesc prs) ++
      (otherOf offers_data).map (mkOther product_price))

end Flipkart

end Scrape

namespace Scrape

/-! ## JioMart variant (`enhanced_jiomart_scraper_comprehensive.py`,
class `JioMartOfferAnalyzer`) -/

namespace JioMart

/-- `self.bank_scores` (extends the shared table with digital wallets). -/
def bank_scores : List (String × ℚ) :=
  Croma.bank_scores ++
  [("Paytm", 75), ("MobiKwik", 70), ("Mobikwik", 70), ("PhonePe", 75),
   ("Google Pay", 75), ("GPay", 75), ("Amazon Pay", 72), ("Airtel Money", 65),
   ("Jio Money", 65), ("FreeCharge", 65), ("PayU", 68), ("Razorpay", 68),
   ("UPI", 78), ("BHIM UPI", 75), ("Paytm UPI", 75), ("Paytm Wallet", 75),
   ("MobiKwik Wallet", 70), ("Mobikwik Wallet", 70), ("PhonePe UPI", 75),
   ("Google Pay UPI", 75), ("GPay UPI", 75), ("Paytm UPI Lite", 73),
   ("UPI Lite", 73), ("Wallet", 65), ("Digital Wallet", 65)]

/-- `self.default_bank_score = 70` -/
def default_bank_score : ℚ := 70

/-- `extract_card_type` is textually identical to the Croma one. -/
def extract_card_type (description : String) : Option String :=
  Scrape.extract_card_type description

/-- `extract_amount` is textually identical to the Croma one (seven flat
patterns, three cap patterns, two cashback patterns). -/
def extract_amount (description : String) : ℚ :=
  Croma.extract_amount description

/-- `bank_variations` (the only tier of this variant's `extract_bank`),
including the digital payment identities. -/
def bank_variations : List (String × String) :=
  [("hdfc", "HDFC"), ("icici", "ICICI"), ("axis", "Axis"), ("sbi", "SBI"),
   ("kotak", "Kotak"), ("yes", "Yes Bank"), ("idfc", "IDFC"),
   ("indusind", "IndusInd Bank"), ("federal", "Federal Bank"),
   ("rbl", "RBL Bank"), ("citi", "Citi"), ("hsbc", "HSBC"),
   ("standard chartered", "Standard Chartered"), ("au bank", "AU Bank"),
   ("equitas", "Equitas"), ("ujjivan", "Ujjivan"), ("pnb", "PNB"),
   ("bob", "BoB"), ("canara", "Canara Bank"),
   ("union bank", "Union Bank of India"), ("indian bank", "Indian Bank"),
   ("bank of india", "Bank of India"), ("uco", "UCO Bank"),
   ("iob", "Indian Overseas Bank"), ("central bank", "Central Bank of India"),
   ("amex", "Amex"), ("american express", "American Express"),
   ("paytm", "Paytm"), ("mobikwik", "MobiKwik"), ("phonepe", "PhonePe"),
   ("phone pe", "PhonePe"), ("google pay", "Google Pay"),
   ("gpay", "Google Pay"), ("g pay", "Google Pay"),
   ("amazon pay", "Amazon Pay"), ("upi", "UPI"), ("paytm upi", "Paytm UPI"),
   ("paytm wallet", "Paytm Wallet"), ("mobikwik wallet", "MobiKwik Wallet"),
   ("paytm upi lite", "Paytm UPI Lite"), ("upi lite", "UPI Lite"),
   ("bhim upi", "BHIM UPI"), ("bhim", "BHIM UPI"),
   ("phonepe upi", "PhonePe UPI"), ("google pay upi", "Google Pay UPI"),
   ("gpay upi", "Google Pay UPI"), ("airtel money", "Airtel Money"),
   ("jio money", "Jio Money"), ("freecharge", "FreeCharge"), ("payu", "PayU"),
   ("razorpay", "Razorpay"), ("wallet", "Wallet"),
   ("digital wallet", "Digital Wallet")]

/-- `extract_bank`: single variations tier, first hit wins. -/
def extract_bank (description : String) : Option String :=
  if description = "" then none
  else
    let dl := lowerL description.data
    (bank_variations.find? (fun vp => substrL vp.1.data dl)).map
      (fun vp => vp.2)

/-- `extract_min_spend` is textually identical to the Croma one. -/
def extract_min_spend (description : String) : Option ℚ :=
  Croma.extract_min_spend description

/-- `determine_offer_type` (Croma logic with the `JioMart Offer` default). -/
def determine_offer_type (card_title description : String) : String :=
  if anyKey ["bank offer", "instant discount", "card offer"]
      (lowerL card_title.data) then "Bank Offer"
  else if anyKey ["no cost emi", "no-cost emi", "emi"]
      (lowerL card_title.data) then "No Cost EMI"
  else if anyKey ["cashback", "cash back"] (lowerL card_title.data) then
    "Cashback"
  else if anyKey ["exchange offer", "exchange"] (lowerL card_title.data) then
    "Exchange Offer"
  else if anyKey ["partner offer", "partner"] (lowerL card_title.data) then
    "Partner Offers"
  else if anyKey ["bank", "credit card", "debit card"]
      (lowerL description.data) then "Bank Offer"
  else if anyKey ["emi", "no cost"] (lowerL description.data) then "No Cost EMI"
  else if card_title ≠ "" then card_title
  else "JioMart Offer"

/-- The parsed `Offer` dataclass of this variant (no percentage field;
`validity` and `card_provider` keep their dataclass defaults). -/
structure Offer where
  title : String
  description : String
  amount : ℚ
  type : String
  bank : Option String
  validity : Option String
  min_spend : Option ℚ
  is_instant : Bool
  card_type : Option String
  card_provider : Option String
deriving DecidableEq

/-- `parse_offer`. -/
def parse_offer (offer : RawOffer) : Offer :=
  let card_title := pyStrip (offer.card_type.getD "")
  let description := pyStrip (offer.offer_description.getD "")
  let offer_type := determine_offer_type card_title description
  let title :=
    if offer_type = "Bank Offer" then "Bank Offer"
    else if card_title = "" ∨
        ["summary", "", "jiomart offer"].contains (String.mk (lowerL card_title.data)) then
      offer_type
    else card_title
  { title := title
    description := description
    amount := extract_amount description
    type := offer_type
    bank := extract_bank description
    validity := none
    min_spend := extract_min_spend description
    is_instant := substrL "instant".data (lowerL description.data) ||
      !(substrL "cashback".data (lowerL description.data))
    card_type := extract_card_type description
    card_provider := none }

/-- `calculate_offer_score` with the extra digital-payment bonus; `none`
models the `ZeroDivisionError` at zero price. -/
def calculate_offer_score (offer : Offer) (product_price : ℚ) : Option ℚ :=
  if offer.type ≠ "Bank Offer" then some 0
  else
    let base0 : ℚ := 80
    let base1 :=
      if product_price > 0 ∧ offer.amount > 0 then
        base0 + pyMin ((offer.amount / product_price) * 100 * 2) 50
      else base0
    let step2 : Option ℚ :=
      match offer.min_spend with
      | some m =>
        if m ≠ 0 ∧ m > product_price then
          if product_price = 0 then none
          else
            let penalty_percentage := ((m - product_price) / product_price) * 100
            if penalty_percentage > 50 then some 15
            else some (pyMax (base1 - penalty_percentage * (1/2)) 20)
        else if m ≤ product_price then
          let spend_ratio := if product_price > 0 then m / product_price else 0
          if spend_ratio ≤ 9/10 then some (base1 + (1 - spend_ratio) * 10)
          else some base1
        else some base1
      | none => some (base1 + 20)
    match step2 with
    | none => none
    | some base2 =>
      let base3 := if offer.is_instant then base2 + 5 else base2
      let base4 :=
        if sTruthy offer.bank then
          base3 + (dictGet bank_scores (offer.bank.getD "") default_bank_score - 70) / 2
        else base3 - 5
      let base5 :=
        if sTruthy offer.card_type then
          if offer.card_type.getD "" = "Credit" then base4 + 3
          else if offer.card_type.getD "" = "Credit/Debit" then base4 + 2
          else if offer.card_type.getD "" = "Debit" then base4 + 1
          else base4
        else base4
      let base6 :=
        if sTruthy offer.bank &&
            ["upi", "wallet", "paytm", "mobikwik", "phonepe", "google pay",
             "gpay"].any
              (fun k => substrL k.data (lowerL (offer.bank.getD "").data)) then
          base5 + 5
        else base5
      some (pyMax 0 (pyMin 100 base6))

/-- Output record of this variant (`note` not modelled; no validity,
percentage or card-provider keys in the source dict). -/
structure RankedOffer where
  title : String
  description : String
  amount : ℚ
  bank : Option String
  min_spend : Option ℚ
  score : Option ℚ
  is_instant : Bool
  net_effective_price : ℚ
  is_applicable : Bool
  offer_type : String
  rank : Option Nat
  card_type : Option String
deriving DecidableEq

/-- Net effective price and applicability (flat amount only). -/
def netAndApplicable (offer : Offer) (product_price : ℚ) : ℚ × Bool :=
  if qTruthy offer.min_spend ∧ product_price < offer.min_spend.getD 0 then
    (product_price, false)
  else (pyMax (product_price - offer.amount) 0, true)

/-- One iteration of the bank-offer loop. -/
def mkScoredBank (product_price : ℚ) (offer : Offer) :
    Option (ℚ × RankedOffer) :=
  (calculate_offer_score offer product_price).map fun score =>
    let na := netAndApplicable offer product_price
    (score,
     { title := offer.title, description := offer.description,
       amount := offer.amount, bank := offer.bank,
       min_spend := offer.min_spend, score := some score,
       is_instant := offer.is_instant, net_effective_price := na.1,
       is_applicable := na.2, offer_type := "Bank Offer", rank := none,
       card_type := offer.card_type })

/-- One iteration of the other-offer loop. -/
def mkOther (product_price : ℚ) (offer : Offer) : RankedOffer :=
  let na := netAndApplicable offer product_price
  { title := offer.title, description := offer.description,
    amount := offer.amount, bank := offer.bank,
    min_spend := offer.min_spend, score := none,
    is_instant := offer.is_instant, net_effective_price := na.1,
    is_applicable := na.2, offer_type := offer.type, rank := none,
    card_type := offer.card_type }

/-- Rank assignment after the stable descending sort. -/
def withRanks : Nat → List (ℚ × RankedOffer) → List RankedOffer
  | _, [] => []
  | n, p :: ps => { p.2 with rank := some n } :: withRanks (n + 1) ps

/-- `parsed_offers`: the dict-shaped inputs, parsed
(`[self.parse_offer(offer) for offer in offers_data if isinstance(offer, dict)]`). -/
def parsedOf (offers_data : List RawItem) : List Offer :=
  (offers_data.filterMap RawItem.asDict).map parse_offer

/-- `bank_offers`: the parsed offers of type Bank Offer. -/
def bankOf (offers_data : List RawItem) : List Offer :=
  (parsedOf offers_data).filter (fun o => o.type == "Bank Offer")

/-- `other_offers`: the remaining parsed offers. -/
def otherOf (offers_data : List RawItem) : List Offer :=
  (parsedOf offers_data).filter (fun o => o.type != "Bank Offer")

/-- `rank_offers`: score the bank offers (an exception aborts the whole
call), stably sort them by descending score, assign ranks 1.., then append
the other offers unranked. -/
def rank_offers (offers_data : List RawItem) (product_price : ℚ) :
    Option (List RankedOffer) :=
  match mapMO (mkScoredBank product_price) (bankOf offers_data) with
  | none => none
  | some prs =>
    some (withRanks 1 (sortPairsDesc prs) ++
      (otherOf offers_data).map (mkOther product_price))

end JioMart

end Scrape

namespace Scrape

/-! ## Amazon variant (`enhanced_amazon_scraper.py`, class `OfferAnalyzer`) -/

namespace Amazon

/-- `self.bank_scores` is textually identical to the Croma table. -/
def bank_scores : List (String × ℚ) := Croma.bank_scores

/-- `self.bank_name_patterns` (note the `"Iob"` key, the one difference from
the Croma table). -/
def bank_name_patterns : List (String × List String) :=
  [("SBI", ["SBI", "State Bank", "State Bank of India"]),
   ("HDFC", ["HDFC", "HDFC Bank"]),
   ("ICICI", ["ICICI", "ICICI Bank"]),
   ("Axis", ["Axis", "Axis Bank"]),
   ("Kotak", ["Kotak", "Kotak Mahindra"]),
   ("Yes Bank", ["Yes Bank", "YES Bank"]),
   ("IDFC", ["IDFC", "IDFC FIRST", "IDFC Bank"]),
   ("IndusInd", ["IndusInd", "IndusInd Bank"]),
   ("Federal", ["Federal", "Federal Bank"]),
   ("RBL", ["RBL", "RBL Bank"]),
   ("Citi", ["Citi", "Citibank", "CitiBank"]),
   ("HSBC", ["HSBC"]),
   ("Standard Chartered", ["Standard Chartered", "StanChart", "SC Bank"]),
   ("AU Bank", ["AU Bank", "AU Small Finance", "AU"]),
   ("Equitas", ["Equitas", "Equitas Bank"]),
   ("Ujjivan", ["Ujjivan", "Ujjivan Bank"]),
   ("PNB", ["PNB", "Punjab National Bank"]),
   ("BoB", ["BoB", "Bank of Baroda", "Baroda"]),
   ("Canara", ["Canara", "Canara Bank"]),
   ("Union Bank", ["Union Bank", "Union Bank of India"]),
   ("Indian Bank", ["Indian Bank"]),
   ("Bank of India", ["Bank of India"]),
   ("UCO Bank", ["UCO", "UCO Bank"]),
   ("Iob", ["IOB", "Indian Overseas Bank"]),
   ("Central Bank", ["Central Bank", "Central Bank of India"]),
   ("Bank of Maharashtra", ["Bank of Maharashtra", "Maharashtra Bank"]),
   ("Amex", ["Amex", "American Express"]),
   ("DBS", ["DBS", "DBS Bank"])]

/-- `bank_variations` (third tier, local to `extract_bank`). -/
def bank_variations : List (String × String) :=
  [("hdfc", "HDFC"), ("icici", "ICICI"), ("axis", "Axis"), ("sbi", "SBI"),
   ("kotak", "Kotak"), ("yes", "Yes Bank"), ("idfc", "IDFC"),
   ("indusind", "IndusInd Bank"), ("federal", "Federal Bank"),
   ("rbl", "RBL Bank"), ("citi", "Citi"), ("hsbc", "HSBC"),
   ("standard chartered", "Standard Chartered"), ("au bank", "AU Bank"),
   ("equitas", "Equitas"), ("ujjivan", "Ujjivan"), ("pnb", "PNB"),
   ("bob", "BoB"), ("canara", "Canara Bank"),
   ("union bank", "Union Bank of India"), ("indian bank", "Indian Bank"),
   ("bank of india", "Bank of India"), ("uco", "UCO Bank"),
   ("iob", "Indian Overseas Bank"), ("central bank", "Central Bank of India"),
   ("amex", "Amex"), ("american express", "American Express")]

/-- `self.default_bank_score = 70` -/
def default_bank_score : ℚ := 70

/-- The Amazon flat tier: only the first five patterns (no bare `Rs`/`INR`
patterns in this variant). -/
def flatPatterns5 : List RE :=
  [Pat.flat1, Pat.flat2, Pat.flat3, Pat.flat4, Pat.flat5]

/-- `extract_amount`: five flat patterns, three cap patterns, two cashback
patterns. -/
def extract_amount (description : String) : ℚ :=
  match tryPatterns flatPatterns5 description.data with
  | some caps => capValue caps 1
  | none =>
    match tryPatterns capPatterns3 description.data with
    | some caps => capValue caps 2
    | none =>
      match tryPatterns cashPatterns description.data with
      | some caps => capValue caps 1
      | none => 0

/-- `extract_bank`: three tiers, each returning its first hit (unlike the
Croma variant, which collects all hits). -/
def extract_bank (description : String) : Option String :=
  if description = "" then none
  else
    let dl := lowerL description.data
    match bank_name_patterns.find?
        (fun kp => kp.2.any (fun p => substrL (lowerL p.data) dl)) with
    | some kp => some kp.1
    | none =>
      match (sortStable (fun a b => decide (b.length ≤ a.length))
          (bank_scores.map (fun pr => pr.1))).find?
        (fun b => substrL (lowerL b.data) dl) with
      | some b => some b
      | none =>
        (bank_variations.find? (fun vp => substrL vp.1.data dl)).map
          (fun vp => vp.2)

/-- `extract_validity` is textually identical to the Croma one. -/
def extract_validity (description : String) : Option String :=
  Croma.extract_validity description

/-- `extract_min_spend`: the eight patterns with the `(?:INR\s+|₹\s*)`
currency token (no `Rs` option in this variant). -/
def extract_min_spend (description : String) : Option ℚ :=
  go [Pat.minSp1 inrRs, Pat.minSp2 inrRs, Pat.minSp3 inrRs, Pat.minSp4 inrRs,
      Pat.minSp5 inrRs, Pat.minSp6 inrRs, Pat.minSp7 inrRs, Pat.minSp8 inrRs]
    description.data
where
  go : List RE → List Char → Option ℚ
  | [], _ => none
  | p :: rest, s =>
    match reSearch p s with
    | none => go rest s
    | some caps =>
      match (capGet caps 1).bind pyFloatOfCap with
      | some v => some v
      | none => go rest s

/-- `determine_offer_type` (no exchange branch, no EMI description fallback,
default `"Other Offer"`). -/
def determine_offer_type (card_title description : String) : String :=
  if anyKey ["bank offer", "instant discount", "card offer"]
      (lowerL card_title.data) then "Bank Offer"
  else if anyKey ["no cost emi", "no-cost emi", "emi"]
      (lowerL card_title.data) then "No Cost EMI"
  else if anyKey ["cashback", "cash back"] (lowerL card_title.data) then
    "Cashback"
  else if anyKey ["partner offer", "partner"] (lowerL card_title.data) then
    "Partner Offers"
  else if anyKey ["bank", "credit card", "debit card"]
      (lowerL description.data) then "Bank Offer"
  else if card_title ≠ "" then card_title
  else "Other Offer"

/-- The parsed `Offer` dataclass of this variant (no percentage field). -/
structure Offer where
  title : String
  description : String
  amount : ℚ
  type : String
  bank : Option String
  validity : Option String
  min_spend : Option ℚ
  is_instant : Bool
  card_type : Option String
  card_provider : Option String
deriving DecidableEq

/-- `parse_offer` (placeholder list is `['summary', '']`). -/
def parse_offer (offer : RawOffer) : Offer :=
  let card_title := pyStrip (offer.card_type.getD "")
  let description := pyStrip (offer.offer_description.getD "")
  let offer_type := determine_offer_type card_title description
  let title :=
    if offer_type = "Bank Offer" then "Bank Offer"
    else if card_title = "" ∨
        ["summary", ""].contains (String.mk (lowerL card_title.data)) then
      offer_type
    else card_title
  { title := title
    description := description
    amount := extract_amount description
    type := offer_type
    bank := extract_bank description
    validity := extract_validity description
    min_spend := extract_min_spend description
    is_instant := substrL "instant".data (lowerL description.data) ||
      !(substrL "cashback".data (lowerL description.data))
    card_type := Scrape.extract_card_type description
    card_provider := Scrape.extract_card_provider description }

/-- `calculate_offer_score` (flat amount only; instant, bank, card-type and
provider bonuses); `none` models the `ZeroDivisionError` at zero price. -/
def calculate_offer_score (offer : Offer) (product_price : ℚ) : Option ℚ :=
  if offer.type ≠ "Bank Offer" then some 0
  else
    let base0 : ℚ := 80
    let base1 :=
      if product_price > 0 ∧ offer.amount > 0 then
        base0 + pyMin ((offer.amount / product_price) * 100 * 2) 50
      else base0
    let step2 : Option ℚ :=
      match offer.min_spend with
      | some m =>
        if m ≠ 0 ∧ m > product_price then
          if product_price = 0 then none
          else
            let penalty_percentage := ((m - product_price) / product_price) * 100
            if penalty_percentage > 50 then some 15
            else some (pyMax (base1 - penalty_percentage * (1/2)) 20)
        else if m ≤ product_price then
          let spend_ratio := if product_price > 0 then m / product_price else 0
          if spend_ratio ≤ 9/10 then some (base1 + (1 - spend_ratio) * 10)
          else some base1
        else some base1
      | none => some (base1 + 20)
    match step2 with
    | none => none
    | some base2 =>
      let base3 := if offer.is_instant then base2 + 5 else base2
      let base4 :=
        if sTruthy offer.bank then
          base3 + (dictGet bank_scores (offer.bank.getD "") default_bank_score - 70) / 2
        else base3 - 5
      let base5 :=
        if sTruthy offer.card_type then
          if offer.card_type.getD "" = "Credit" then base4 + 3
          else if offer.card_type.getD "" = "Credit/Debit" then base4 + 2
          else if offer.card_type.getD "" = "Debit" then base4 + 1
          else base4
        else base4
      let base6 :=
        if sTruthy offer.card_provider then
          base5 + dictGet
            [("Visa", 2), ("Mastercard", 2), ("RuPay", 3),
             ("American Express", 4), ("Amex", 4), ("Diners Club", 3)]
            (offer.card_provider.getD "") 1
        else base5
      some (pyMax 0 (pyMin 100 base6))

/-- Output record of this variant (`note` not modelled; no percentage key). -/
structure RankedOffer where
  title : String
  description : String
  amount : ℚ
  bank : Option String
  validity : Option String
  min_spend : Option ℚ
  score : Option ℚ
  is_instant : Bool
  net_effective_price : ℚ
  is_applicable : Bool
  offer_type : String
  rank : Option Nat
  card_type : Option String
  card_provider : Option String
deriving DecidableEq

/-- Net effective price and applicability (flat amount only). -/
def netAndApplicable (offer : Offer) (product_price : ℚ) : ℚ × Bool :=
  if qTruthy offer.min_spend ∧ product_price < offer.min_spend.getD 0 then
    (product_price, false)
  else (pyMax (product_price - offer.amount) 0, true)

/-- One iteration of the bank-offer loop. -/
def mkScoredBank (product_price : ℚ) (offer : Offer) :
    Option (ℚ × RankedOffer) :=
  (calculate_offer_score offer product_price).map fun score =>
    let na := netAndApplicable offer product_price
    (score,
     { title := offer.title, description := offer.description,
       amount := offer.amount, bank := offer.bank, validity := offer.validity,
       min_spend := offer.min_spend, score := some score,
       is_instant := offer.is_instant, net_effective_price := na.1,
       is_applicable := na.2, offer_type := "Bank Offer", rank := none,
       card_type := offer.card_type, card_provider := offer.card_provider })

/-- One iteration of the other-offer loop. -/
def mkOther (product_price : ℚ) (offer : Offer) : RankedOffer :=
  let na := netAndApplicable offer product_price
  { title := offer.title, description := offer.description,
    amount := offer.amount, bank := offer.bank, validity := offer.validity,
    min_spend := offer.min_spend, score := none,
    is_instant := offer.is_instant, net_effective_price := na.1,
    is_applicable := na.2, offer_type := offer.type, rank := none,
    card_type := offer.card_type, card_provider := offer.card_provider }

/-- Rank assignment after the stable descending sort. -/
def withRanks : Nat → List (ℚ × RankedOffer) → List RankedOffer
  | _, [] => []
  | n, p :: ps => { p.2 with rank := some n } :: withRanks (n + 1) ps

/-- `parsed_offers`: the dict-shaped inputs, parsed
(`[self.parse_offer(offer) for offer in offers_data if isinstance(offer, dict)]`). -/
def parsedOf (offers_data : List RawItem) : List Offer :=
  (offers_data.filterMap RawItem.asDict).map parse_offer

/-- `bank_offers`: the parsed offers of type Bank Offer. -/
def bankOf (offers_data : List RawItem) : List Offer :=
  (parsedOf offers_data).filter (fun o => o.type == "Bank Offer")

/-- `other_offers`: the remaining parsed offers. -/
def otherOf (offers_data : List RawItem) : List Offer :=
  (parsedOf offers_data).filter (fun o => o.type != "Bank Offer")

/-- `rank_offers`: score the bank offers (an exception aborts the whole
call), stably sort them by descending score, assign ranks 1.., then append
the other offers unranked. -/
def rank_offers (offers_data : List RawItem) (product_price : ℚ) :
    Option (List RankedOffer) :=
  match mapMO (mkScoredBank product_price) (bankOf offers_data) with
  | none => none
  | some prs =>
    some (withRanks 1 (sortPairsDesc prs) ++
      (otherOf offers_data).map (mkOther product_price))

end Amazon

end Scrape

namespace Scrape

/-! ## Relational matching semantics

Used to settle the reachability question about the percentage-with-cap tier
of `extract_amount` (claim C10): the executable matcher is related to a
declarative matching relation on the assertion-free fragment, in both
directions. -/

/-- The fragment without context-dependent assertions (`(?! … )`, `\b`);
all amount patterns live in it. -/
def noCtx : RE → Bool
  | .eps => true
  | .cls _ => true
  | .seq a b => noCtx a && noCtx b
  | .alt a b => noCtx a && noCtx b
  | .star _ => true
  | .starL _ => true
  | .group _ a => noCtx a
  | .nla _ => false
  | .wb => false

/-- Declarative matching: `RMatch r u` says the word `u` is in the language
of `r` (assertions match nothing, matching their absence from the fragment). -/
inductive RMatch : RE → List Char → Prop where
  | eps : RMatch .eps []
  | cls {p : Char → Bool} {c : Char} : p c = true → RMatch (.cls p) [c]
  | seq {a b : RE} {u v : List Char} :
      RMatch a u → RMatch b v → RMatch (.seq a b) (u ++ v)
  | altL {a b : RE} {u : List Char} : RMatch a u → RMatch (.alt a b) u
  | altR {a b : RE} {u : List Char} : RMatch b u → RMatch (.alt a b) u
  | starNil {p : Char → Bool} : RMatch (.star p) []
  | starCons {p : Char → Bool} {c : Char} {cs : List Char} :
      p c = true → RMatch (.star p) cs → RMatch (.star p) (c :: cs)
  | starLNil {p : Char → Bool} : RMatch (.starL p) []
  | starLCons {p : Char → Bool} {c : Char} {cs : List Char} :
      p c = true → RMatch (.starL p) cs → RMatch (.starL p) (c :: cs)
  | group {n : Nat} {a : RE} {u : List Char} :
      RMatch a u → RMatch (.group n a) u

/-- A word of `p`-characters is in the language of `p*`. -/
theorem RMatch_star_of_all {p : Char → Bool} :
    ∀ {u : List Char}, (∀ c ∈ u, p c = true) → RMatch (.star p) u
  | [], _ => .starNil
  | c :: cs, h =>
    .starCons (h c (List.mem_cons_self c cs))
      (RMatch_star_of_all fun x hx => h x (List.mem_cons_of_mem c hx))

/-- Soundness of the greedy-repetition helper: a successful run consumed a
block of `p`-characters and then ran the continuation. -/
theorem starG_sound {p : Char → Bool} {s : List Char} :
    ∀ {prev caps k res}, starG p prev s caps k = some res →
    ∃ u v prev2, s = u ++ v ∧ (∀ c ∈ u, p c = true) ∧
      k prev2 v caps = some res := by
  induction s with
  | nil =>
    intro prev caps k res h
    exact ⟨[], [], prev, rfl, by simp, by simpa [starG] using h⟩
  | cons c rest ih =>
    intro prev caps k res h
    by_cases hpc : p c = true
    · rw [starG, hpc] at h
      simp only [if_true] at h
      cases hst : starG p (some c) rest caps k with
      | some r =>
        rw [hst] at h
        obtain ⟨u, v, prev2, hsplit, hall, hk⟩ := ih (hst.trans h)
        refine ⟨c :: u, v, prev2, by simp [hsplit], ?_, hk⟩
        intro x hx
        rcases List.mem_cons.mp hx with hx | hx
        · exact hx ▸ hpc
        · exact hall x hx
      | none =>
        rw [hst] at h
        exact ⟨[], c :: rest, prev, rfl, by simp, h⟩
    · rw [starG] at h
      simp only [hpc, if_false] at h
      exact ⟨[], c :: rest, prev, rfl, by simp, h⟩

/-- Soundness of the lazy-repetition helper. -/
theorem starLz_sound {p : Char → Bool} {s : List Char} :
    ∀ {prev caps k res}, starLz p prev s caps k = some res →
    ∃ u v prev2, s = u ++ v ∧ (∀ c ∈ u, p c = true) ∧
      k prev2 v caps = some res := by
  induction s with
  | nil =>
    intro prev caps k res h
    rw [starLz] at h
    cases hk : k prev [] caps with
    | some r => rw [hk] at h; exact ⟨[], [], prev, rfl, by simp, hk.trans h⟩
    | none => rw [hk] at h; exact absurd h (by simp)
  | cons c rest ih =>
    intro prev caps k res h
    rw [starLz] at h
    cases hk : k prev (c :: rest) caps with
    | some r =>
      rw [hk] at h
      exact ⟨[], c :: rest, prev, rfl, by simp, hk.trans h⟩
    | none =>
      rw [hk] at h
      by_cases hpc : p c = true
      · simp only [hpc, if_true] at h
        obtain ⟨u, v, prev2, hsplit, hall, hkk⟩ := ih h
        refine ⟨c :: u, v, prev2, by simp [hsplit], ?_, hkk⟩
        intro x hx
        rcases List.mem_cons.mp hx with hx | hx
        · exact hx ▸ hpc
        · exact hall x hx
      · simp [hpc] at h

/-- Soundness of the matcher on the assertion-free fragment: a successful run
split the input into a declaratively matched prefix and a suffix accepted by
the continuation. -/
theorem mre_sound :
    ∀ (r : RE), noCtx r = true →
    ∀ {prev : Option Char} {s : List Char} {caps : Caps}
      {k : Option Char → List Char → Caps → Option Caps} {res : Caps},
      mre r prev s caps k = some res →
      ∃ u v prev2 caps2, s = u ++ v ∧ RMatch r u ∧ k prev2 v caps2 = some res := by
  intro r
  induction r with
  | eps =>
    intro _ prev s caps k res h
    exact ⟨[], s, prev, caps, rfl, .eps, by simpa [mre] using h⟩
  | cls p =>
    intro _ prev s caps k res h
    match s, h with
    | c :: rest, h =>
      rw [mre] at h
      by_cases hpc : p c = true
      · rw [hpc] at h
        simp only [if_true] at h
        exact ⟨[c], rest, some c, caps, rfl, .cls hpc, h⟩
      · simp [hpc] at h
  | seq a b iha ihb =>
    intro hn prev s caps k res h
    rw [noCtx, Bool.and_eq_true] at hn
    rw [mre] at h
    obtain ⟨u1, v1, prev2, caps2, hs1, hm1, hk1⟩ := iha hn.1 h
    obtain ⟨u2, v2, prev3, caps3, hs2, hm2, hk2⟩ := ihb hn.2 hk1
    exact ⟨u1 ++ u2, v2, prev3, caps3,
      by rw [hs1, hs2, List.append_assoc], .seq hm1 hm2, hk2⟩
  | alt a b iha ihb =>
    intro hn prev s caps k res h
    rw [noCtx, Bool.and_eq_true] at hn
    rw [mre] at h
    cases hma : mre a prev s caps k with
    | some r =>
      rw [hma] at h
      obtain ⟨u, v, prev2, caps2, hs, hm, hk⟩ := iha hn.1 (hma.trans h)
      exact ⟨u, v, prev2, caps2, hs, .altL hm, hk⟩
    | none =>
      rw [hma] at h
      obtain ⟨u, v, prev2, caps2, hs, hm, hk⟩ := ihb hn.2 h
      exact ⟨u, v, prev2, caps2, hs, .altR hm, hk⟩
  | star p =>
    intro _ prev s caps k res h
    rw [mre] at h
    obtain ⟨u, v, prev2, hs, hall, hk⟩ := starG_sound h
    exact ⟨u, v, prev2, caps, hs, RMatch_star_of_all hall, hk⟩
  | starL p =>
    intro _ prev s caps k res h
    rw [mre] at h
    obtain ⟨u, v, prev2, hs, hall, hk⟩ := starLz_sound h
    refine ⟨u, v, prev2, caps, hs, ?_, hk⟩
    clear hk hs
    induction u with
    | nil => exact .starLNil
    | cons c cs ih =>
      exact .starLCons (hall c (List.mem_cons_self c cs))
        (ih fun x hx => hall x (List.mem_cons_of_mem c hx))
  | group n a iha =>
    intro hn prev s caps k res h
    rw [mre] at h
    obtain ⟨u, v, prev2, caps2, hs, hm, hk⟩ := iha (by simpa [noCtx] using hn) h
    exact ⟨u, v, prev2, (n, s.take (s.length - v.length)) :: caps2, hs,
      .group hm, hk⟩
  | nla a _ =>
    intro hn
    simp [noCtx] at hn
  | wb =>
    intro hn
    simp [noCtx] at hn

end Scrape

namespace Scrape

/-- If the continuation succeeds at the current position, the greedy helper
succeeds (it falls back to consuming nothing). -/
theorem starG_complete_zero {p : Char → Bool} {prev : Option Char}
    {s : List Char} {caps : Caps}
    {k : Option Char → List Char → Caps → Option Caps}
    (hk : (k prev s caps).isSome) : (starG p prev s caps k).isSome := by
  cases s with
  | nil => simpa [starG] using hk
  | cons c rest =>
    rw [starG]
    by_cases hpc : p c = true
    · simp only [hpc, if_true]
      cases hst : starG p (some c) rest caps k with
      | some r => simp
      | none => simpa using hk
    · simpa [hpc] using hk

/-- If the continuation succeeds at the current position, the lazy helper
succeeds (it tries consuming nothing first). -/
theorem starLz_complete_zero {p : Char → Bool} {prev : Option Char}
    {s : List Char} {caps : Caps}
    {k : Option Char → List Char → Caps → Option Caps}
    (hk : (k prev s caps).isSome) : (starLz p prev s caps k).isSome := by
  obtain ⟨r, hr⟩ := Option.isSome_iff_exists.mp hk
  cases s with
  | nil => rw [starLz, hr]; simp
  | cons c rest => rw [starLz, hr]; simp

/-- Completeness of the matcher on the assertion-free fragment: if `u` is in
the language of `r` and the continuation succeeds on `v` whatever state it
receives, the matcher succeeds on `u ++ v`. -/
theorem mre_complete {r : RE} {u : List Char} (h : RMatch r u) :
    noCtx r = true →
    ∀ {v : List Char} (prev : Option Char) (caps : Caps)
      (k : Option Char → List Char → Caps → Option Caps),
      (∀ p2 c2, (k p2 v c2).isSome) → (mre r prev (u ++ v) caps k).isSome := by
  induction h with
  | eps =>
    intro _ v prev caps k hk
    simpa [mre] using hk prev caps
  | cls hpc =>
    intro _ v prev caps k hk
    rw [List.cons_append, mre]
    simpa [hpc] using hk _ caps
  | seq hma hmb iha ihb =>
    intro hn v prev caps k hk
    rw [noCtx, Bool.and_eq_true] at hn
    rw [List.append_assoc, mre]
    exact iha hn.1 prev caps _ fun p2 c2 => ihb hn.2 p2 c2 k hk
  | altL hma iha =>
    intro hn v prev caps k hk
    rw [noCtx, Bool.and_eq_true] at hn
    rw [mre]
    obtain ⟨r, hr⟩ := Option.isSome_iff_exists.mp (iha hn.1 prev caps k hk)
    simp [hr]
  | altR hmb ihb =>
    intro hn v prev caps k hk
    rw [noCtx, Bool.and_eq_true] at hn
    rw [mre]
    cases hma : mre _ prev _ caps k with
    | some r => simp
    | none => exact ihb hn.2 prev caps k hk
  | starNil =>
    intro _ v prev caps k hk
    rw [List.nil_append, mre]
    exact starG_complete_zero (hk prev caps)
  | starCons hpc _ ih =>
    rename_i p c cs hm
    intro _ v prev caps k hk
    rw [List.cons_append, mre, starG, hpc]
    simp only [if_true]
    obtain ⟨r, hr⟩ := Option.isSome_iff_exists.mp (ih rfl (some c) caps k hk)
    rw [mre] at hr
    rw [hr]
    simp
  | starLNil =>
    intro _ v prev caps k hk
    rw [List.nil_append, mre]
    exact starLz_complete_zero (hk prev caps)
  | starLCons hpc _ ih =>
    rename_i p c cs hm
    intro _ v prev caps k hk
    rw [List.cons_append, mre, starLz]
    cases hkz : k prev _ caps with
    | some r => simp
    | none =>
      simp only [hpc, if_true]
      have := ih rfl (some c) caps k hk
      rw [mre] at this
      exact this
  | group hma iha =>
    intro hn v prev caps k hk
    rw [mre]
    exact iha (by simpa [noCtx] using hn) prev caps _ fun p2 c2 => hk p2 _

/-- A hit of the matcher at the current position makes the scan succeed. -/
theorem reSearchAux_isSome_of_mre {r : RE} {prev : Option Char} {s : List Char}
    (h : (mre r prev s [] (fun _ _ c => some c)).isSome) :
    (reSearchAux r prev s).isSome := by
  obtain ⟨c0, hc0⟩ := Option.isSome_iff_exists.mp h
  cases s with
  | nil => rw [reSearchAux, hc0]; simp
  | cons c rest => rw [reSearchAux, hc0]; simp

/-- A miss at the current position makes the scan step to the next one. -/
theorem reSearchAux_cons_none {r : RE} {prev : Option Char} {c : Char}
    {rest : List Char}
    (h : mre r prev (c :: rest) [] (fun _ _ c => some c) = none) :
    reSearchAux r prev (c :: rest) = reSearchAux r (some c) rest := by
  rw [reSearchAux, h]

/-- `re.search` completeness: a declarative match of some infix makes the
scan succeed. -/
theorem reSearchAux_complete {r : RE} (hn : noCtx r = true)
    {pre u post : List Char} (hm : RMatch r u) :
    ∀ prev, (reSearchAux r prev (pre ++ u ++ post)).isSome := by
  induction pre with
  | nil =>
    intro prev
    rw [List.nil_append]
    exact reSearchAux_isSome_of_mre
      (mre_complete hm hn prev [] (fun _ _ c => some c) (fun _ _ => rfl))
  | cons c pre' ih =>
    intro prev
    have hshape : (c :: pre') ++ u ++ post = c :: (pre' ++ u ++ post) := by simp
    rw [hshape]
    cases hm0 : mre r prev (c :: (pre' ++ u ++ post)) [] (fun _ _ c => some c) with
    | some cc =>
      exact reSearchAux_isSome_of_mre
        (Option.isSome_iff_exists.mpr ⟨cc, by simpa using hm0⟩)
    | none => rw [reSearchAux_cons_none hm0]; exact ih (some c)

/-- `re.search` soundness on the assertion-free fragment: a successful scan
exhibits a declaratively matched infix. -/
theorem reSearchAux_sound {r : RE} (hn : noCtx r = true) :
    ∀ {s : List Char} {prev : Option Char} {res : Caps},
      reSearchAux r prev s = some res →
      ∃ pre u post, s = pre ++ u ++ post ∧ RMatch r u := by
  intro s
  induction s with
  | nil =>
    intro prev res h
    rw [reSearchAux] at h
    cases hm0 : mre r prev [] [] (fun _ _ c => some c) with
    | some c =>
      obtain ⟨u, v, _, _, hs, hm, _⟩ := mre_sound r hn hm0
      exact ⟨[], u, v, by simpa using hs, hm⟩
    | none => rw [hm0] at h; simp at h
  | cons c rest ih =>
    intro prev res h
    rw [reSearchAux] at h
    cases hm0 : mre r prev (c :: rest) [] (fun _ _ c => some c) with
    | some cc =>
      obtain ⟨u, v, _, _, hs, hm, _⟩ := mre_sound r hn hm0
      exact ⟨[], u, v, by simpa using hs, hm⟩
    | none =>
      rw [hm0] at h
      simp only at h
      obtain ⟨pre, u, post, hs, hm⟩ := ih h
      exact ⟨c :: pre, u, post, by simp [hs], hm⟩

/-- If some listed pattern's search succeeds, the pattern cascade succeeds. -/
theorem tryPatterns_isSome_of_mem {pats : List RE} {p : RE} {s : List Char}
    (hp : p ∈ pats) (hs : (reSearch p s).isSome) :
    (tryPatterns pats s).isSome := by
  induction pats with
  | nil => cases hp
  | cons q rest ih =>
    rw [tryPatterns]
    cases hq : reSearch q s with
    | some c => simp
    | none =>
      rcases List.mem_cons.mp hp with hpq | hpm
      · rw [hpq, hq] at hs; simp at hs
      · exact ih hpm

/-- If the pattern cascade succeeds, some listed pattern's search succeeds. -/
theorem exists_mem_of_tryPatterns_isSome {pats : List RE} {s : List Char}
    (h : (tryPatterns pats s).isSome) :
    ∃ p ∈ pats, (reSearch p s).isSome := by
  induction pats with
  | nil => simp [tryPatterns] at h
  | cons q rest ih =>
    rw [tryPatterns] at h
    cases hq : reSearch q s with
    | some c => exact ⟨q, List.mem_cons_self q rest, by simp [hq]⟩
    | none =>
      rw [hq] at h
      obtain ⟨p, hpm, hps⟩ := ih h
      exact ⟨p, List.mem_cons_of_mem q hpm, hps⟩

end Scrape

namespace Scrape

/-! ## Unreachability of the percentage-with-cap tier of `extract_amount` -/

/-- Inversion for concatenation. -/
theorem RMatch_seq_inv {a b : RE} {w : List Char} (h : RMatch (.seq a b) w) :
    ∃ u v, w = u ++ v ∧ RMatch a u ∧ RMatch b v := by
  cases h with
  | seq hu hv => exact ⟨_, _, rfl, hu, hv⟩

/-- Inversion for groups. -/
theorem RMatch_group_inv {n : Nat} {a : RE} {u : List Char}
    (h : RMatch (.group n a) u) : RMatch a u := by
  cases h with
  | group hm => exact hm

/-- The trailing `(?:INR\s+|₹\s*)([\d,]+\.?\d*)` of a cap pattern is itself a
word of the flat pattern `(?:Save\s+)?(?:INR\s+|₹\s*)([\d,]+\.?\d*)` (with the
optional `Save` absent and the group renumbered). -/
theorem flat4_of_capTail {w : List Char}
    (h : RMatch (.seq inrRs (numCG 2)) w) : RMatch Pat.flat4 w := by
  obtain ⟨u, v, hw, hu, hv⟩ := RMatch_seq_inv h
  have hnum : RMatch (numCG 1) v := .group (RMatch_group_inv hv)
  have htail : RMatch (.seq inrRs (numCG 1)) w := hw ▸ .seq hu hnum
  have : RMatch Pat.flat4 ([] ++ w) :=
    .seq (.altR .eps) htail
  simpa using this

/-- Every cap pattern is `front ⬝ (?:INR\s+|₹\s*) ⬝ (cap group)`: from any of
its words one can carve out a word of `Pat.flat4`. -/
theorem capShape_flat4 {front : RE} {w : List Char}
    (h : RMatch (.seq front (.seq inrRs (numCG 2))) w) :
    ∃ w1 w2, w = w1 ++ w2 ∧ RMatch Pat.flat4 w2 := by
  obtain ⟨u, v, hw, _, hv⟩ := RMatch_seq_inv h
  exact ⟨u, v, hw, flat4_of_capTail hv⟩

/-- If any of the three percentage-with-cap patterns matches somewhere in
`s`, then the bare flat pattern `Pat.flat4` matches somewhere in `s`. -/
theorem flat4_search_of_cap_search {s : List Char} {p : RE}
    (hpm : p ∈ [Pat.cap1, Pat.cap2, Pat.cap3])
    (hps : (reSearch p s).isSome) : (reSearch Pat.flat4 s).isSome := by
  obtain ⟨res, hres⟩ := Option.isSome_iff_exists.mp hps
  have hinfix : ∃ pre u post, s = pre ++ u ++ post ∧ RMatch p u := by
    have hn : noCtx p = true := by
      rcases List.mem_cons.mp hpm with h1 | hpm
      · rw [h1]; decide
      rcases List.mem_cons.mp hpm with h2 | hpm
      · rw [h2]; decide
      rcases List.mem_cons.mp hpm with h3 | hpm
      · rw [h3]; decide
      · cases hpm
    exact reSearchAux_sound hn hres
  obtain ⟨pre, u, post, hs, hm⟩ := hinfix
  have hshape : ∃ w1 w2, u = w1 ++ w2 ∧ RMatch Pat.flat4 w2 := by
    rcases List.mem_cons.mp hpm with h1 | hpm
    · exact capShape_flat4 (h1 ▸ hm)
    rcases List.mem_cons.mp hpm with h2 | hpm
    · exact capShape_flat4 (h2 ▸ hm)
    rcases List.mem_cons.mp hpm with h3 | hpm
    · exact capShape_flat4 (h3 ▸ hm)
    · cases hpm
  obtain ⟨w1, w2, hu, hm4⟩ := hshape
  have hs2 : s = (pre ++ w1) ++ w2 ++ post := by
    rw [hs, hu]; simp [List.append_assoc]
  have := @reSearchAux_complete Pat.flat4 (by decide) (pre ++ w1) w2 post
    hm4 none
  rw [← hs2] at this
  exact this

/-- If the cap tier fires on `s`, the flat tier (which contains `Pat.flat4`)
fires on `s` — for the three-pattern cap tier (Croma/JioMart). -/
theorem flatTier_of_capTier3 {s : List Char}
    (hc : (tryPatterns capPatterns3 s).isSome) :
    (tryPatterns flatPatterns7 s).isSome := by
  obtain ⟨p, hpm, hps⟩ := exists_mem_of_tryPatterns_isSome hc
  exact tryPatterns_isSome_of_mem (by simp [flatPatterns7])
    (flat4_search_of_cap_search (by simpa [capPatterns3] using hpm) hps)

/-- Same for the two-pattern cap tier (Flipkart). -/
theorem flatTier_of_capTier2 {s : List Char}
    (hc : (tryPatterns capPatterns2 s).isSome) :
    (tryPatterns flatPatterns7 s).isSome := by
  obtain ⟨p, hpm, hps⟩ := exists_mem_of_tryPatterns_isSome hc
  have : p ∈ [Pat.cap1, Pat.cap2, Pat.cap3] := by
    rcases List.mem_cons.mp (by simpa [capPatterns2] using hpm : p ∈ [Pat.cap1, Pat.cap2]) with h | h
    · simp [h]
    · simp at h; simp [h]
  exact tryPatterns_isSome_of_mem (by simp [flatPatterns7])
    (flat4_search_of_cap_search this hps)

/-- The Croma `extract_amount` with the percentage-with-cap tier deleted
(the comparison function for the refinement claim C10). -/
def Croma.extract_amount_nocap (description : String) : ℚ :=
  match tryPatterns flatPatterns7 description.data with
  | some caps => capValue caps 1
  | none =>
    match tryPatterns cashPatterns description.data with
    | some caps => capValue caps 1
    | none => 0

/-- The JioMart `extract_amount` with the cap tier deleted. -/
def JioMart.extract_amount_nocap (description : String) : ℚ :=
  Croma.extract_amount_nocap description

/-- The Flipkart `extract_amount` with the cap tier deleted. -/
def Flipkart.extract_amount_nocap (description : String) : ℚ :=
  match tryPatterns flatPatterns7 description.data with
  | some caps => capValue caps 1
  | none => 0

end Scrape

namespace Scrape

/-! ## Generic lemmas about the ranking machinery -/

/-- `mapMO` preserves length. -/
theorem mapMO_length {f : α → Option β} :
    ∀ {l : List α} {bs : List β}, mapMO f l = some bs → bs.length = l.length := by
  intro l
  induction l with
  | nil => intro bs h; simp [mapMO] at h; simp [← h]
  | cons a rest ih =>
    intro bs h
    rw [mapMO] at h
    cases hfa : f a with
    | none => rw [hfa] at h; simp at h
    | some b =>
      rw [hfa] at h
      cases hrest : mapMO f rest with
      | none => rw [hrest] at h; simp at h
      | some bs' =>
        rw [hrest] at h
        simp only [Option.some.injEq] at h
        rw [← h]
        simp [ih hrest]

/-- `mapMO` succeeds when every element succeeds. -/
theorem mapMO_isSome {f : α → Option β} :
    ∀ {l : List α}, (∀ a ∈ l, (f a).isSome) → (mapMO f l).isSome := by
  intro l
  induction l with
  | nil => intro _; simp [mapMO]
  | cons a rest ih =>
    intro h
    rw [mapMO]
    obtain ⟨b, hb⟩ := Option.isSome_iff_exists.mp (h a (List.mem_cons_self a rest))
    rw [hb]
    obtain ⟨bs, hbs⟩ := Option.isSome_iff_exists.mp
      (ih fun x hx => h x (List.mem_cons_of_mem a hx))
    rw [hbs]
    simp

/-- Provenance of `mapMO` outputs. -/
theorem mapMO_mem {f : α → Option β} :
    ∀ {l : List α} {bs : List β}, mapMO f l = some bs →
    ∀ b ∈ bs, ∃ a ∈ l, f a = some b := by
  intro l
  induction l with
  | nil =>
    intro bs h b hb
    simp [mapMO] at h
    rw [h] at hb
    cases hb
  | cons a rest ih =>
    intro bs h b hb
    rw [mapMO] at h
    cases hfa : f a with
    | none => rw [hfa] at h; simp at h
    | some b0 =>
      rw [hfa] at h
      cases hrest : mapMO f rest with
      | none => rw [hrest] at h; simp at h
      | some bs' =>
        rw [hrest] at h
        simp only [Option.some.injEq] at h
        rw [← h] at hb
        rcases List.mem_cons.mp hb with hb | hb
        · exact ⟨a, List.mem_cons_self a rest, hb ▸ hfa⟩
        · obtain ⟨a', ha', hfa'⟩ := ih hrest b hb
          exact ⟨a', List.mem_cons_of_mem a ha', hfa'⟩

/-- Length of stable insertion. -/
theorem length_insertSorted (le : α → α → Bool) (x : α) :
    ∀ (l : List α), (insertSorted le x l).length = l.length + 1 := by
  intro l
  induction l with
  | nil => rfl
  | cons y ys ih =>
    rw [insertSorted]
    by_cases hle : le x y
    · simp [hle]
    · simp [hle, ih]

/-- Length of the stable sort. -/
theorem length_sortStable (le : α → α → Bool) :
    ∀ (l : List α), (sortStable le l).length = l.length := by
  intro l
  induction l with
  | nil => rfl
  | cons x xs ih => rw [sortStable, length_insertSorted, ih]; rfl

/-- Membership in stable insertion. -/
theorem mem_insertSorted (le : α → α → Bool) (x : α) :
    ∀ {l : List α} {a : α}, a ∈ insertSorted le x l ↔ a = x ∨ a ∈ l := by
  intro l
  induction l with
  | nil => intro a; simp [insertSorted]
  | cons y ys ih =>
    intro a
    rw [insertSorted]
    cases hle : le x y with
    | true => simp [List.mem_cons]
    | false =>
      simp only [Bool.false_eq_true, if_false, List.mem_cons, ih]
      tauto

/-- Membership in the stable sort. -/
theorem mem_sortStable (le : α → α → Bool) :
    ∀ {l : List α} {a : α}, a ∈ sortStable le l ↔ a ∈ l := by
  intro l
  induction l with
  | nil => intro a; simp [sortStable]
  | cons x xs ih =>
    intro a
    rw [sortStable, mem_insertSorted, ih, List.mem_cons]

/-- The head of a stable insertion is the new element or the old head. -/
theorem head?_insertSorted (le : α → α → Bool) (x : α) (l : List α) :
    (insertSorted le x l).head? = some x ∨
      (insertSorted le x l).head? = l.head? := by
  cases l with
  | nil => left; rfl
  | cons y ys =>
    rw [insertSorted]
    by_cases hle : le x y
    · left; simp [hle]
    · right; simp [hle]

/-- Stable insertion preserves descending chains of pair keys. -/
theorem chain'_insertSorted_pairs {α : Type} (x : ℚ × α) :
    ∀ {l : List (ℚ × α)},
      List.Chain' (fun a b => b.1 ≤ a.1) l →
      List.Chain' (fun a b : ℚ × α => b.1 ≤ a.1)
        (insertSorted (fun a b => decide (b.1 ≤ a.1)) x l) := by
  intro l
  induction l with
  | nil => intro _; simp [insertSorted]
  | cons y ys ih =>
    intro hl
    rw [insertSorted]
    cases hle : (decide (y.1 ≤ x.1) : Bool) with
    | true =>
      simp only [if_true]
      exact List.chain'_cons.mpr ⟨of_decide_eq_true hle, hl⟩
    | false =>
      simp only [Bool.false_eq_true, if_false]
      have hxy : x.1 ≤ y.1 := le_of_not_le (of_decide_eq_false hle)
      have hys := (List.chain'_cons'.mp hl).2
      have hhead := (List.chain'_cons'.mp hl).1
      refine List.chain'_cons'.mpr ⟨?_, ih hys⟩
      intro b hb
      have hcase :=
        head?_insertSorted (fun a b : ℚ × α => decide (b.1 ≤ a.1)) x ys
      rcases hcase with hh | hh
      · rw [hh] at hb
        simp only [Option.mem_def, Option.some.injEq] at hb
        rw [← hb]
        exact hxy
      · rw [hh] at hb
        exact hhead b hb

/-- The stable descending sort of score/record pairs is descending in keys. -/
theorem chain'_sortPairsDesc {α : Type} :
    ∀ (l : List (ℚ × α)),
      List.Chain' (fun a b => b.1 ≤ a.1) (sortPairsDesc l) := by
  intro l
  induction l with
  | nil => simp [sortPairsDesc, sortStable]
  | cons x xs ih =>
    rw [sortPairsDesc, sortStable]
    exact chain'_insertSorted_pairs x ih

/-- Filtering by an exact key commutes with stable insertion: the skipped
prefix consists of strictly larger keys. -/
theorem filter_insertSorted_pairs {α : Type} (q : ℚ) (x : ℚ × α) :
    ∀ (l : List (ℚ × α)),
      (insertSorted (fun a b => decide (b.1 ≤ a.1)) x l).filter
          (fun p => p.1 == q) =
        if x.1 == q then x :: l.filter (fun p => p.1 == q)
        else l.filter (fun p => p.1 == q) := by
  intro l
  induction l with
  | nil => cases hxq : (x.1 == q : Bool) <;> simp [insertSorted, hxq]
  | cons y ys ih =>
    rw [insertSorted]
    cases hle : (decide (y.1 ≤ x.1) : Bool) with
    | true =>
      simp only [if_true]
      cases hxq : (x.1 == q : Bool) <;> simp [List.filter, hxq]
    | false =>
      simp only [Bool.false_eq_true, if_false]
      have hxy : x.1 < y.1 := lt_of_not_le (of_decide_eq_false hle)
      cases hxq : (x.1 == q : Bool) with
      | true =>
        have hxq' : x.1 = q := by simpa using hxq
        have hyq : (y.1 == q : Bool) = false := by
          have : y.1 ≠ q := by rw [← hxq']; exact ne_of_gt hxy
          simpa using this
        simp [List.filter, hyq, ih, hxq]
      | false =>
        cases hyq : (y.1 == q : Bool) <;> simp [List.filter, hyq, ih, hxq]

/-- Stability of the descending sort: the subsequence at each exact score is
preserved, hence ties keep their original relative order. -/
theorem filter_sortPairsDesc {α : Type} (q : ℚ) :
    ∀ (l : List (ℚ × α)),
      (sortPairsDesc l).filter (fun p => p.1 == q) =
        l.filter (fun p => p.1 == q) := by
  intro l
  induction l with
  | nil => rfl
  | cons x xs ih =>
    rw [sortPairsDesc, sortStable]
    rw [show sortStable (fun a b => decide (b.1 ≤ a.1)) xs = sortPairsDesc xs
      from rfl]
    rw [filter_insertSorted_pairs, ih]
    cases hxq : (x.1 == q : Bool) <;> simp [List.filter, hxq]

/-- Partition lengths: the two complementary filters cover the list. -/
theorem length_filter_partition (p : α → Bool) :
    ∀ (l : List α),
      (l.filter p).length + (l.filter (fun a => !(p a))).length = l.length := by
  intro l
  induction l with
  | nil => rfl
  | cons a rest ih =>
    cases hpa : p a <;>
      simp [List.filter, hpa, ← ih, Nat.add_assoc, Nat.add_comm, Nat.add_left_comm]

end Scrape

namespace Scrape

/-! ## Nonnegativity invariants of the numeric extractors -/

/-- `float` on a capture text never yields a negative value. -/
theorem pyFloat_nonneg {cs : List Char} {q : ℚ} (h : pyFloat cs = some q) :
    0 ≤ q := by
  unfold pyFloat at h
  split at h
  · split at h
    · simp only [Option.some.injEq] at h
      rw [← h]
      positivity
    · simp at h
  · split at h
    · simp only [Option.some.injEq] at h
      rw [← h]
      positivity
    · simp at h
  · simp at h

/-- The `capValue` fallback chain never yields a negative value. -/
theorem capValue_nonneg (caps : Caps) (n : Nat) : 0 ≤ capValue caps n := by
  unfold capValue
  split
  · next v hv =>
    cases hcg : capGet caps n with
    | none => rw [hcg] at hv; simp at hv
    | some cs =>
      rw [hcg] at hv
      exact pyFloat_nonneg hv
  · exact le_refl 0

/-- The Croma `extract_amount` is nonnegative. -/
theorem Croma.croma_extract_amount_nonneg (d : String) :
    0 ≤ Croma.extract_amount d := by
  unfold Croma.extract_amount
  split
  · exact capValue_nonneg ..
  · split
    · exact capValue_nonneg ..
    · split
      · exact capValue_nonneg ..
      · exact le_refl 0

/-- The Flipkart `extract_amount` is nonnegative. -/
theorem Flipkart.flipkart_extract_amount_nonneg (d : String) :
    0 ≤ Flipkart.extract_amount d := by
  unfold Flipkart.extract_amount
  split
  · exact capValue_nonneg ..
  · split
    · exact capValue_nonneg ..
    · exact le_refl 0

/-- The Croma `extract_percentage` is nonnegative when present. -/
theorem Croma.extract_percentage_nonneg {d : String} {p : ℚ}
    (h : Croma.extract_percentage d = some p) : 0 ≤ p := by
  unfold Croma.extract_percentage at h
  split at h
  · cases hcg : capGet _ 1 with
    | none => rw [hcg] at h; simp at h
    | some cs =>
      rw [hcg] at h
      exact pyFloat_nonneg h
  · simp at h

/-! ## Per-variant lemmas about rank assignment -/

/-- Length of the Croma rank assignment. -/
theorem Croma.croma_length_withRanks :
    ∀ (n : Nat) (l : List (ℚ × Croma.RankedOffer)),
      (Croma.withRanks n l).length = l.length := by
  intro n l
  induction l generalizing n with
  | nil => rfl
  | cons p ps ih => rw [Croma.withRanks]; simp [ih]

/-- Ranks assigned by the Croma loop are consecutive from its start index. -/
theorem Croma.map_rank_withRanks :
    ∀ (n : Nat) (l : List (ℚ × Croma.RankedOffer)),
      (Croma.withRanks n l).map (fun r => r.rank) =
        (List.range' n l.length).map some := by
  intro n l
  induction l generalizing n with
  | nil => rfl
  | cons p ps ih =>
    rw [Croma.withRanks]
    simp only [List.length_cons, List.range'_succ, List.map_cons, List.map_map]
    simpa using ih (n + 1)

/-- Provenance of Croma ranked records. -/
theorem Croma.croma_mem_withRanks :
    ∀ {n : Nat} {l : List (ℚ × Croma.RankedOffer)} {r : Croma.RankedOffer},
      r ∈ Croma.withRanks n l →
      ∃ p ∈ l, ∃ m, r = { p.2 with rank := some m } := by
  intro n l
  induction l generalizing n with
  | nil => intro r h; cases h
  | cons p ps ih =>
    intro r h
    rw [Croma.withRanks] at h
    rcases List.mem_cons.mp h with h | h
    · exact ⟨p, List.mem_cons_self p ps, n, h⟩
    · obtain ⟨p', hp', m, hm⟩ := ih h
      exact ⟨p', List.mem_cons_of_mem p hp', m, hm⟩

/-- Rank assignment preserves the descending-score chain (the record scores
are exactly the sort keys). -/
theorem Croma.chain_withRanks :
    ∀ {l : List (ℚ × Croma.RankedOffer)} (n : Nat),
      (∀ p ∈ l, (p.2).score = some p.1) →
      List.Chain' (fun a b => b.1 ≤ a.1) l →
      List.Chain'
        (fun a b : Croma.RankedOffer => b.score.getD 0 ≤ a.score.getD 0)
        (Croma.withRanks n l) := by
  intro l
  induction l with
  | nil => intro n _ _; simp [Croma.withRanks]
  | cons p ps ih =>
    intro n hsc hch
    rw [Croma.withRanks]
    cases ps with
    | nil => simp [Croma.withRanks]
    | cons p' ps' =>
      rw [Croma.withRanks]
      refine List.chain'_cons.mpr ⟨?_, ?_⟩
      · have h1 := hsc p (List.mem_cons_self p _)
        have h2 := hsc p' (List.mem_cons_of_mem p (List.mem_cons_self p' ps'))
        have hle := (List.chain'_cons.mp hch).1
        simp only [h1, h2, Option.getD_some]
        exact hle
      · have := ih (n + 1)
          (fun x hx => hsc x (List.mem_cons_of_mem p hx))
          (List.chain'_cons.mp hch).2
        rw [Croma.withRanks] at this
        exact this

/-- Scores survive rank assignment. -/
theorem Croma.score_withRanks :
    ∀ {n : Nat} {l : List (ℚ × Croma.RankedOffer)},
      (∀ p ∈ l, (p.2).score = some p.1) →
      ∀ r ∈ Croma.withRanks n l, ∃ q, r.score = some q := by
  intro n l hsc r hr
  obtain ⟨p, hp, m, hm⟩ := Croma.croma_mem_withRanks hr
  exact ⟨p.1, by rw [hm]; simpa using hsc p hp⟩

/-- The scored-record builder records its own score. -/
theorem Croma.mkScoredBank_score {price : ℚ} {o : Croma.Offer}
    {pr : ℚ × Croma.RankedOffer} (h : Croma.mkScoredBank price o = some pr) :
    (pr.2).score = some pr.1 := by
  unfold Croma.mkScoredBank at h
  obtain ⟨sc, hsc⟩ : ∃ sc, Croma.calculate_offer_score o price = some sc := by
    cases hh : Croma.calculate_offer_score o price with
    | none => rw [hh] at h; simp at h
    | some sc => exact ⟨sc, rfl⟩
  rw [hsc] at h
  simp only [Option.map_some', Option.some.injEq] at h
  rw [← h]

/-- Length of the Flipkart rank assignment. -/
theorem Flipkart.flipkart_length_withRanks :
    ∀ (n : Nat) (l : List (ℚ × Flipkart.RankedOffer)),
      (Flipkart.withRanks n l).length = l.length := by
  intro n l
  induction l generalizing n with
  | nil => rfl
  | cons p ps ih => rw [Flipkart.withRanks]; simp [ih]

/-- Provenance of Flipkart ranked records. -/
theorem Flipkart.flipkart_mem_withRanks :
    ∀ {n : Nat} {l : List (ℚ × Flipkart.RankedOffer)} {r : Flipkart.RankedOffer},
      r ∈ Flipkart.withRanks n l →
      ∃ p ∈ l, ∃ m, r = { p.2 with rank := some m } := by
  intro n l
  induction l generalizing n with
  | nil => intro r h; cases h
  | cons p ps ih =>
    intro r h
    rw [Flipkart.withRanks] at h
    rcases List.mem_cons.mp h with h | h
    · exact ⟨p, List.mem_cons_self p ps, n, h⟩
    · obtain ⟨p', hp', m, hm⟩ := ih h
      exact ⟨p', List.mem_cons_of_mem p hp', m, hm⟩

/-- Length of the JioMart rank assignment. -/
theorem JioMart.jiomart_length_withRanks :
    ∀ (n : Nat) (l : List (ℚ × JioMart.RankedOffer)),
      (JioMart.withRanks n l).length = l.length := by
  intro n l
  induction l generalizing n with
  | nil => rfl
  | cons p ps ih => rw [JioMart.withRanks]; simp [ih]

/-- Length of the Amazon rank assignment. -/
theorem Amazon.amazon_length_withRanks :
    ∀ (n : Nat) (l : List (ℚ × Amazon.RankedOffer)),
      (Amazon.withRanks n l).length = l.length := by
  intro n l
  induction l generalizing n with
  | nil => rfl
  | cons p ps ih => rw [Amazon.withRanks]; simp [ih]

end Scrape

namespace Scrape

/-! ## Net-price bounds and exception-freedom lemmas -/

/-- Croma net price stays within `[0, price]` for nonnegative inputs. -/
theorem Croma.croma_netAndApplicable_bounds {o : Croma.Offer} {price : ℚ}
    (hpr : 0 ≤ price) (ham : 0 ≤ o.amount) :
    0 ≤ (Croma.netAndApplicable o price).1 ∧
      (Croma.netAndApplicable o price).1 ≤ price := by
  unfold Croma.netAndApplicable
  simp only [pyMax_eq_max]
  split
  · exact ⟨hpr, le_refl price⟩
  · split
    · next p hp2 =>
      split
      · next hppos =>
        refine ⟨le_max_right _ 0, max_le ?_ hpr⟩
        have hd : 0 ≤ p / 100 * price :=
          mul_nonneg (div_nonneg (le_of_lt hppos) (by norm_num)) hpr
        linarith
      · exact ⟨le_max_right _ 0, max_le (by linarith) hpr⟩
    · exact ⟨le_max_right _ 0, max_le (by linarith) hpr⟩

/-- Flipkart net price stays within `[0, price]` for nonnegative inputs. -/
theorem Flipkart.flipkart_netAndApplicable_bounds {o : Flipkart.Offer} {price : ℚ}
    (hpr : 0 ≤ price) (ham : 0 ≤ o.amount) :
    0 ≤ (Flipkart.netAndApplicable o price).1 ∧
      (Flipkart.netAndApplicable o price).1 ≤ price := by
  unfold Flipkart.netAndApplicable
  simp only [pyMax_eq_max]
  split
  · exact ⟨hpr, le_refl price⟩
  · exact ⟨le_max_right _ 0, max_le (by linarith) hpr⟩

/-- The only uncaught exception in the Croma scoring is the division by a
zero product price: away from zero the scorer is total. -/
theorem Croma.croma_mkScoredBank_isSome (o : Croma.Offer) {price : ℚ}
    (hp : price ≠ 0) : (Croma.mkScoredBank price o).isSome := by
  unfold Croma.mkScoredBank
  suffices h : (Croma.calculate_offer_score o price).isSome by
    obtain ⟨sc, hsc⟩ := Option.isSome_iff_exists.mp h
    simp [hsc]
  simp only [Croma.calculate_offer_score]
  split
  · simp
  · split
    · next hnone =>
      exfalso
      split at hnone
      all_goals try split at hnone
      all_goals try split at hnone
      all_goals try split at hnone
      all_goals try split at hnone
      all_goals try split at hnone
      all_goals first
        | exact hp (by assumption)
        | simp at hnone
    · simp

/-- Same for the Flipkart scoring. -/
theorem Flipkart.flipkart_mkScoredBank_isSome (o : Flipkart.Offer) {price : ℚ}
    (hp : price ≠ 0) : (Flipkart.mkScoredBank price o).isSome := by
  unfold Flipkart.mkScoredBank
  suffices h : (Flipkart.calculate_offer_score o price).isSome by
    obtain ⟨sc, hsc⟩ := Option.isSome_iff_exists.mp h
    simp [hsc]
  simp only [Flipkart.calculate_offer_score]
  split
  · simp
  · split
    · next hnone =>
      exfalso
      split at hnone
      all_goals try split at hnone
      all_goals try split at hnone
      all_goals try split at hnone
      all_goals try split at hnone
      all_goals try split at hnone
      all_goals first
        | exact hp (by assumption)
        | simp at hnone
    · simp

end Scrape

namespace Scrape

/-- The scored-record builder carries the computed net price. -/
theorem Croma.croma_mkScoredBank_net {price : ℚ} {o : Croma.Offer}
    {pr : ℚ × Croma.RankedOffer} (h : Croma.mkScoredBank price o = some pr) :
    (pr.2).net_effective_price = (Croma.netAndApplicable o price).1 := by
  unfold Croma.mkScoredBank at h
  obtain ⟨sc, hsc⟩ : ∃ sc, Croma.calculate_offer_score o price = some sc := by
    cases hh : Croma.calculate_offer_score o price with
    | none => rw [hh] at h; simp at h
    | some sc => exact ⟨sc, rfl⟩
  rw [hsc] at h
  simp only [Option.map_some', Option.some.injEq] at h
  rw [← h]

/-- Flipkart version. -/
theorem Flipkart.flipkart_mkScoredBank_net {price : ℚ} {o : Flipkart.Offer}
    {pr : ℚ × Flipkart.RankedOffer} (h : Flipkart.mkScoredBank price o = some pr) :
    (pr.2).net_effective_price = (Flipkart.netAndApplicable o price).1 := by
  unfold Flipkart.mkScoredBank at h
  obtain ⟨sc, hsc⟩ : ∃ sc, Flipkart.calculate_offer_score o price = some sc := by
    cases hh : Flipkart.calculate_offer_score o price with
    | none => rw [hh] at h; simp at h
    | some sc => exact ⟨sc, rfl⟩
  rw [hsc] at h
  simp only [Option.map_some', Option.some.injEq] at h
  rw [← h]

/-- Every parsed Croma offer has a nonnegative amount. -/
theorem Croma.croma_parse_offer_amount_nonneg (raw : RawOffer) :
    0 ≤ (Croma.parse_offer raw).amount := by
  simp only [Croma.parse_offer]
  exact Croma.croma_extract_amount_nonneg _

/-- Every parsed Flipkart offer has a nonnegative amount. -/
theorem Flipkart.flipkart_parse_offer_amount_nonneg (raw : RawOffer) :
    0 ≤ (Flipkart.parse_offer raw).amount := by
  simp only [Flipkart.parse_offer]
  exact Flipkart.flipkart_extract_amount_nonneg _

/-- Members of the parsed-offer list are parses of raw inputs. -/
theorem Croma.croma_mem_parsedOf {items : List RawItem} {o : Croma.Offer}
    (h : o ∈ Croma.parsedOf items) : ∃ raw, o = Croma.parse_offer raw := by
  unfold Croma.parsedOf at h
  obtain ⟨raw, _, hraw⟩ := List.mem_map.mp h
  exact ⟨raw, hraw.symm⟩

/-- Flipkart version. -/
theorem Flipkart.flipkart_mem_parsedOf {items : List RawItem} {o : Flipkart.Offer}
    (h : o ∈ Flipkart.parsedOf items) : ∃ raw, o = Flipkart.parse_offer raw := by
  unfold Flipkart.parsedOf at h
  obtain ⟨raw, _, hraw⟩ := List.mem_map.mp h
  exact ⟨raw, hraw.symm⟩

/-- The Croma offer-type classifier never returns the empty string. -/
theorem Croma.croma_determine_offer_type_ne_empty (t d : String) :
    Croma.determine_offer_type t d ≠ "" := by
  unfold Croma.determine_offer_type
  intro hcontra
  repeat' split at hcontra
  all_goals simp_all

/-- The Amazon offer-type classifier never returns the empty string. -/
theorem Amazon.amazon_determine_offer_type_ne_empty (t d : String) :
    Amazon.determine_offer_type t d ≠ "" := by
  unfold Amazon.determine_offer_type
  intro hcontra
  repeat' split at hcontra
  all_goals simp_all

/-- The JioMart offer-type classifier never returns the empty string. -/
theorem JioMart.jiomart_determine_offer_type_ne_empty (t d : String) :
    JioMart.determine_offer_type t d ≠ "" := by
  unfold JioMart.determine_offer_type
  intro hcontra
  repeat' split at hcontra
  all_goals simp_all

end Scrape

namespace Scrape

/-! ## Concrete inputs used by the claims -/

/-- Scenario 1/2 description (spec §8). -/
def c1desc : String :=
  "Flat ₹1000 Instant Discount on HDFC Bank Credit Card, Minimum purchase value of INR 20000"

/-- Scenario 1/2 raw offer. -/
def c1raw : RawOffer := { card_type := some "Bank Offer", offer_description := some c1desc }

/-- What the Croma parser produces for `c1raw`. -/
def c1parsed : Croma.Offer :=
  { title := "Bank Offer", description := c1desc, amount := 1000,
    type := "Bank Offer", bank := some "HDFC", validity := none,
    min_spend := some 20000, is_instant := true, card_type := some "Credit",
    card_provider := none, percentage := none }

/-- The record `rank_offers` returns for `c1raw` at price 10000. -/
def c1rec : Croma.RankedOffer :=
  { title := "Bank Offer", description := c1desc, amount := 1000,
    percentage := none, bank := some "HDFC", validity := none,
    min_spend := some 20000, score := some (61/2), is_instant := true,
    net_effective_price := 10000, is_applicable := false,
    offer_type := "Bank Offer", rank := some 1,
    card_type := some "Credit", card_provider := none }

/-- The parse of the scenario-2 input. -/
theorem c1_parse : Croma.parse_offer c1raw = c1parsed := by decide

/-- The score of the scenario-2 offer at price 10000: the >50% shortfall
resets the running score to 15, after which the instant (+5), HDFC
reputation (+7.5) and credit-card (+3) bonuses still apply. -/
theorem c1_score : Croma.calculate_offer_score c1parsed 10000 = some (61/2) := by
  have h4 : dictGet Croma.bank_scores "HDFC" Croma.default_bank_score = 85 := by
    decide
  have hcr : (("Credit" : String) = "") = False := by decide
  have hhd : (("HDFC" : String) = "") = False := by decide
  have hbo : (("Bank Offer" : String) = "Bank Offer") = True := by decide
  have hc1 : (("Credit" : String) = "Credit") = True := by decide
  norm_num [Croma.calculate_offer_score, c1parsed, pyMin, pyMax, sTruthy,
    qTruthy, h4, hcr, hhd, hbo, hc1]

/-- Net price and applicability of the scenario-2 offer at price 10000. -/
theorem c1_net : Croma.netAndApplicable c1parsed 10000 = (10000, false) := by
  norm_num [Croma.netAndApplicable, c1parsed, qTruthy]

/-- Full evaluation of `rank_offers` on the scenario-2 input. -/
theorem c1_eval : Croma.rank_offers [.dict c1raw] 10000 = some [c1rec] := by
  have hf : (c1parsed.type == "Bank Offer") = true := by decide
  have ht1 : c1parsed.title = "Bank Offer" := by decide
  have ht2 : c1parsed.description = c1desc := by decide
  have ht3 : c1parsed.amount = 1000 := by decide
  have ht4 : c1parsed.percentage = none := by decide
  have ht5 : c1parsed.bank = some "HDFC" := by decide
  have ht6 : c1parsed.validity = none := by decide
  have ht7 : c1parsed.min_spend = some 20000 := by decide
  have ht8 : c1parsed.is_instant = true := by decide
  have ht9 : c1parsed.card_type = some "Credit" := by decide
  have ht10 : c1parsed.card_provider = none := by decide
  simp only [Croma.rank_offers, Croma.bankOf, Croma.otherOf, Croma.parsedOf,
    List.filterMap, RawItem.asDict, List.map, c1_parse, List.filter, hf, bne,
    Bool.not_true, mapMO, Croma.mkScoredBank, c1_score, c1_net,
    Option.map_some', sortPairsDesc, sortStable, insertSorted,
    Croma.withRanks, ht1, ht2, ht3, ht4, ht5, ht6, ht7, ht8, ht9, ht10,
    c1rec, List.append_nil]

/-! ## Claim C1 -/

/-- C1 (counterexample): for the scenario-2 offer at price 10000 the claim
asserts the returned score is exactly 15 ("a hard reset, not 15 plus later
bonuses"); the code instead returns 30.5 — after the reset to 15 the
instant, bank-reputation and card-type bonuses are still added. -/
theorem claim1_counterexample :
    (Croma.rank_offers [.dict c1raw] 10000).map
        (fun l => l.map (fun r => r.score)) = some [some (61/2)] ∧
      ¬ ((61 : ℚ)/2 = 15) := by
  constructor
  · rw [c1_eval]
    simp [c1rec]
  · norm_num

/-- C1 (amended): for the offer parsed from the scenario-2 description at
product price 10000 the offer is not applicable, the net effective price is
10000, and the returned score is 30.5: the >50% shortfall resets the running
score to 15 and the later bonuses (instant +5, HDFC reputation +7.5,
credit-card +3) are then added on top. -/
theorem claim1_amended :
    Croma.rank_offers [.dict c1raw] 10000 = some [c1rec] ∧
      c1rec.is_applicable = false ∧ c1rec.net_effective_price = 10000 ∧
      c1rec.score = some (61/2) := by
  exact ⟨c1_eval, rfl, rfl, rfl⟩

/-! ## Claim C2 -/

/-- Raw offer whose parsed bank offer has a positive minimum spend. -/
def c2raw : RawOffer :=
  { card_type := some "Bank Offer",
    offer_description := some "Minimum purchase value of INR 5000 on bank cards" }

/-- C2: scoring a bank offer with positive `min_spend` at product price 0
raises an uncaught `ZeroDivisionError` (modelled as `none`) inside
`calculate_offer_score`'s shortfall computation, so `rank_offers` does not
return a ranked list; for every nonzero price the Croma and Flipkart cores
are exception-free. -/
theorem claim2_zero_price_division :
    Croma.rank_offers [.dict c2raw] 0 = none ∧
      (∀ (items : List RawItem) (price : ℚ), price ≠ 0 →
        (Croma.rank_offers items price).isSome) ∧
      (∀ (items : List RawItem) (price : ℚ), price ≠ 0 →
        (Flipkart.rank_offers items price).isSome) := by
  refine ⟨by decide, ?_, ?_⟩
  · intro items price hp
    unfold Croma.rank_offers
    obtain ⟨prs, hprs⟩ := Option.isSome_iff_exists.mp
      (mapMO_isSome (fun o _ => Croma.croma_mkScoredBank_isSome o hp))
    rw [hprs]
    simp
  · intro items price hp
    unfold Flipkart.rank_offers
    obtain ⟨prs, hprs⟩ := Option.isSome_iff_exists.mp
      (mapMO_isSome (fun o _ => Flipkart.flipkart_mkScoredBank_isSome o hp))
    rw [hprs]
    simp

/-- C2 (witness): the nonzero-price totality applied at a concrete input. -/
theorem claim2_witness :
    (1 : ℚ) ≠ 0 ∧ (Croma.rank_offers [.dict c2raw] 1).isSome :=
  ⟨by norm_num, claim2_zero_price_division.2.1 [.dict c2raw] 1 (by norm_num)⟩

/-! ## Claim C3 -/

/-- Scenario 3 description (spec §8). -/
def c3desc : String := "Up to 10% Discount up to INR 2000 on ICICI Bank Cards"

/-- C3 (counterexample): the claim asserts the percentage field is left
unset for this description; `extract_percentage` actually returns 10 (its
`(?:up to|upto) X%` pattern matches independently of the cap handling). -/
theorem claim3_counterexample :
    Croma.extract_percentage c3desc = some 10 ∧
      ¬ (Croma.extract_percentage c3desc = none) := by
  refine ⟨by decide, ?_⟩
  intro h
  have h2 : Croma.extract_percentage c3desc = some 10 := by decide
  rw [h] at h2
  exact Option.noConfusion h2

/-- C3 (amended): parsing the scenario-3 description yields amount = 2000
(the cap figure, captured by the bare `INR number` flat pattern, not by the
percentage-with-cap tier) and percentage = 10 (extracted independently by
`extract_percentage`). -/
theorem claim3_amended :
    Croma.extract_amount c3desc = 2000 ∧
      Croma.extract_percentage c3desc = some 10 := by
  exact ⟨by decide, by decide⟩

/-! ## Claim C4 -/

/-- A description naming two banks. -/
def c4desc : String := "10% off on SBI and HDFC Bank Credit Cards"

/-- C4 (counterexample): on a description in which two banks are detected
(the Croma variant returns both, alphabetically sorted and comma-joined),
the Flipkart variant returns only the first pattern-table hit — refuting
"in every retailer variant ... never returns only one of them". -/
theorem claim4_counterexample :
    Croma.extract_bank c4desc = some "HDFC, SBI" ∧
      Flipkart.extract_bank c4desc = some "SBI" ∧
      ¬ (("SBI" : String) = "HDFC, SBI") := by
  exact ⟨by decide, by decide, by decide⟩

/-- C4 (amended): only the Croma variant returns all detected banks
(alphabetically sorted, comma-joined); the Amazon and Flipkart variants
return the first hit of their pattern tables and the JioMart variant the
first hit of its variations table. -/
theorem claim4_amended :
    Croma.extract_bank c4desc = some "HDFC, SBI" ∧
      Amazon.extract_bank c4desc = some "SBI" ∧
      Flipkart.extract_bank c4desc = some "SBI" ∧
      JioMart.extract_bank c4desc = some "HDFC" := by
  exact ⟨by decide, by decide, by decide, by decide⟩

end Scrape

namespace Scrape

/-! ## Claim C5 -/

/-- A description containing neither "instant" nor "cashback". -/
def c5raw : RawOffer :=
  { card_type := some "Bank Offer", offer_description := some "great deal" }

/-- C5 (counterexample): on a description containing neither "instant" nor
"cashback" the claimed disjunction would make `is_instant` true (no
"cashback" present), and the Croma parser indeed sets it true, but the
Flipkart parser sets it false — its `is_instant` is the bare "instant"
containment test, refuting "in every retailer variant". -/
theorem claim5_counterexample :
    containsCI "instant" "great deal" = false ∧
      containsCI "cashback" "great deal" = false ∧
      (Croma.parse_offer c5raw).is_instant = true ∧
      (Flipkart.parse_offer c5raw).is_instant = false := by
  exact ⟨by decide, by decide, by decide, by decide⟩

/-- C5 (amended): in the Croma, JioMart and Amazon variants `is_instant` is
the disjunction "description contains 'instant' (case-insensitively), or
does not contain 'cashback'"; in the Flipkart variant it is just the
'instant' containment test. -/
theorem claim5_amended :
    ∀ raw : RawOffer,
      ((Croma.parse_offer raw).is_instant =
        (containsCI "instant" (Croma.parse_offer raw).description ||
          !containsCI "cashback" (Croma.parse_offer raw).description)) ∧
      ((JioMart.parse_offer raw).is_instant =
        (containsCI "instant" (JioMart.parse_offer raw).description ||
          !containsCI "cashback" (JioMart.parse_offer raw).description)) ∧
      ((Amazon.parse_offer raw).is_instant =
        (containsCI "instant" (Amazon.parse_offer raw).description ||
          !containsCI "cashback" (Amazon.parse_offer raw).description)) ∧
      ((Flipkart.parse_offer raw).is_instant =
        containsCI "instant" (Flipkart.parse_offer raw).description) := by
  intro raw
  have h1 : lowerL "instant".data = "instant".data := by decide
  have h2 : lowerL "cashback".data = "cashback".data := by decide
  refine ⟨?_, ?_, ?_, ?_⟩
  · simp only [Croma.parse_offer, containsCI, h1, h2]
  · simp only [JioMart.parse_offer, containsCI, h1, h2]
  · simp only [Amazon.parse_offer, containsCI, h1, h2]
  · simp only [Flipkart.parse_offer, containsCI, h1]

/-! ## Claim C7 -/

/-- Raw offer with an empty `card_type` string and a bank description. -/
def c7raw : RawOffer :=
  { card_type := some "", offer_description := some "bank" }

/-- C7 (counterexample): the Flipkart parser keeps the raw `card_type`
value as the title, so an offer classified "Bank Offer" can carry an empty
title — refuting "in every retailer variant the parsed title is nonempty
and a Bank Offer is always titled 'Bank Offer'". -/
theorem claim7_counterexample :
    (Flipkart.parse_offer c7raw).type = "Bank Offer" ∧
      (Flipkart.parse_offer c7raw).title = "" := by
  exact ⟨by decide, by decide⟩

/-- C7 (amended): in the Croma, JioMart and Amazon variants the parsed
title is never empty, and whenever the computed offer type is "Bank Offer"
the title is forced to "Bank Offer"; the Flipkart variant gives no such
guarantee (see the counterexample). -/
theorem claim7_amended :
    ∀ raw : RawOffer,
      ((Croma.parse_offer raw).title ≠ "" ∧
        ((Croma.parse_offer raw).type = "Bank Offer" →
          (Croma.parse_offer raw).title = "Bank Offer")) ∧
      ((JioMart.parse_offer raw).title ≠ "" ∧
        ((JioMart.parse_offer raw).type = "Bank Offer" →
          (JioMart.parse_offer raw).title = "Bank Offer")) ∧
      ((Amazon.parse_offer raw).title ≠ "" ∧
        ((Amazon.parse_offer raw).type = "Bank Offer" →
          (Amazon.parse_offer raw).title = "Bank Offer")) := by
  intro raw
  refine ⟨⟨?_, ?_⟩, ⟨?_, ?_⟩, ⟨?_, ?_⟩⟩
  · simp only [Croma.parse_offer]
    split
    · simp
    split
    · exact Croma.croma_determine_offer_type_ne_empty _ _
    · rename_i h
      exact fun hc => h (Or.inl hc)
  · intro htype
    simp only [Croma.parse_offer] at htype ⊢
    rw [if_pos htype]
  · simp only [JioMart.parse_offer]
    split
    · simp
    split
    · exact JioMart.jiomart_determine_offer_type_ne_empty _ _
    · rename_i h
      exact fun hc => h (Or.inl hc)
  · intro htype
    simp only [JioMart.parse_offer] at htype ⊢
    rw [if_pos htype]
  · simp only [Amazon.parse_offer]
    split
    · simp
    split
    · exact Amazon.amazon_determine_offer_type_ne_empty _ _
    · rename_i h
      exact fun hc => h (Or.inl hc)
  · intro htype
    simp only [Amazon.parse_offer] at htype ⊢
    rw [if_pos htype]

end Scrape

namespace Scrape

/-! ## Claims C6, C8, C9, C10 -/

/-- Length of the descending stable sort. -/
theorem length_sortPairsDesc {α : Type} (l : List (ℚ × α)) :
    (sortPairsDesc l).length = l.length := by
  unfold sortPairsDesc
  exact length_sortStable _ _

/-- Membership in the descending stable sort. -/
theorem mem_sortPairsDesc {α : Type} {l : List (ℚ × α)} {p : ℚ × α} :
    p ∈ sortPairsDesc l ↔ p ∈ l := by
  unfold sortPairsDesc
  exact mem_sortStable _

/-- The structural property of a Croma `rank_offers` result: the scored bank
pairs exist, the output is the rank-assigned descending stable sort of them
followed by the unranked other offers, ranks are 1..N on the bank segment,
scores there are present and descending, ties keep their original relative
order, and the tail records carry no rank and no score. -/
def Croma.rankedStructure (items : List RawItem) (price : ℚ)
    (out : List Croma.RankedOffer) : Prop :=
  ∃ prs : List (ℚ × Croma.RankedOffer),
    mapMO (Croma.mkScoredBank price) (Croma.bankOf items) = some prs ∧
    prs.length = (Croma.bankOf items).length ∧
    out = Croma.withRanks 1 (sortPairsDesc prs) ++
      (Croma.otherOf items).map (Croma.mkOther price) ∧
    (out.take prs.length).map (fun r => r.rank) =
      (List.range' 1 prs.length).map some ∧
    List.Chain' (fun a b : Croma.RankedOffer => b.score.getD 0 ≤ a.score.getD 0)
      (out.take prs.length) ∧
    (∀ r ∈ out.take prs.length, ∃ q, r.score = some q) ∧
    (∀ q : ℚ, (sortPairsDesc prs).filter (fun p => p.1 == q) =
      prs.filter (fun p => p.1 == q)) ∧
    out.drop prs.length = (Croma.otherOf items).map (Croma.mkOther price) ∧
    (∀ r ∈ out.drop prs.length, r.rank = none ∧ r.score = none)

/-- Ranks assigned by the JioMart loop are consecutive from its start index. -/
theorem JioMart.jiomart_map_rank_withRanks :
    ∀ (n : Nat) (l : List (ℚ × JioMart.RankedOffer)),
      (JioMart.withRanks n l).map (fun r => r.rank) =
        (List.range' n l.length).map some := by
  intro n l
  induction l generalizing n with
  | nil => rfl
  | cons p ps ih =>
    rw [JioMart.withRanks]
    simp only [List.length_cons, List.range'_succ, List.map_cons, List.map_map]
    simpa using ih (n + 1)

/-- Provenance of JioMart ranked records. -/
theorem JioMart.jiomart_mem_withRanks :
    ∀ {n : Nat} {l : List (ℚ × JioMart.RankedOffer)} {r : JioMart.RankedOffer},
      r ∈ JioMart.withRanks n l →
      ∃ p ∈ l, ∃ m, r = { p.2 with rank := some m } := by
  intro n l
  induction l generalizing n with
  | nil => intro r h; cases h
  | cons p ps ih =>
    intro r h
    rw [JioMart.withRanks] at h
    rcases List.mem_cons.mp h with h | h
    · exact ⟨p, List.mem_cons_self p ps, n, h⟩
    · obtain ⟨p', hp', m, hm⟩ := ih h
      exact ⟨p', List.mem_cons_of_mem p hp', m, hm⟩

/-- JioMart rank assignment preserves the descending-score chain. -/
theorem JioMart.jiomart_chain_withRanks :
    ∀ {l : List (ℚ × JioMart.RankedOffer)} (n : Nat),
      (∀ p ∈ l, (p.2).score = some p.1) →
      List.Chain' (fun a b => b.1 ≤ a.1) l →
      List.Chain'
        (fun a b : JioMart.RankedOffer => b.score.getD 0 ≤ a.score.getD 0)
        (JioMart.withRanks n l) := by
  intro l
  induction l with
  | nil => intro n _ _; simp [JioMart.withRanks]
  | cons p ps ih =>
    intro n hsc hch
    rw [JioMart.withRanks]
    cases ps with
    | nil => simp [JioMart.withRanks]
    | cons p' ps' =>
      rw [JioMart.withRanks]
      refine List.chain'_cons.mpr ⟨?_, ?_⟩
      · have h1 := hsc p (List.mem_cons_self p _)
        have h2 := hsc p' (List.mem_cons_of_mem p (List.mem_cons_self p' ps'))
        have hle := (List.chain'_cons.mp hch).1
        simp only [h1, h2, Option.getD_some]
        exact hle
      · have := ih (n + 1)
          (fun x hx => hsc x (List.mem_cons_of_mem p hx))
          (List.chain'_cons.mp hch).2
        rw [JioMart.withRanks] at this
        exact this

/-- Scores survive JioMart rank assignment. -/
theorem JioMart.jiomart_score_withRanks :
    ∀ {n : Nat} {l : List (ℚ × JioMart.RankedOffer)},
      (∀ p ∈ l, (p.2).score = some p.1) →
      ∀ r ∈ JioMart.withRanks n l, ∃ q, r.score = some q := by
  intro n l hsc r hr
  obtain ⟨p, hp, m, hm⟩ := JioMart.jiomart_mem_withRanks hr
  exact ⟨p.1, by rw [hm]; simpa using hsc p hp⟩

/-- The JioMart scored-record builder records its own score. -/
theorem JioMart.jiomart_mkScoredBank_score {price : ℚ} {o : JioMart.Offer}
    {pr : ℚ × JioMart.RankedOffer} (h : JioMart.mkScoredBank price o = some pr) :
    (pr.2).score = some pr.1 := by
  unfold JioMart.mkScoredBank at h
  obtain ⟨sc, hsc⟩ : ∃ sc, JioMart.calculate_offer_score o price = some sc := by
    cases hh : JioMart.calculate_offer_score o price with
    | none => rw [hh] at h; simp at h
    | some sc => exact ⟨sc, rfl⟩
  rw [hsc] at h
  simp only [Option.map_some', Option.some.injEq] at h
  rw [← h]

/-- The structural property of a JioMart `rank_offers` result, mirroring
`Croma.rankedStructure`. -/
def JioMart.rankedStructure (items : List RawItem) (price : ℚ)
    (out : List JioMart.RankedOffer) : Prop :=
  ∃ prs : List (ℚ × JioMart.RankedOffer),
    mapMO (JioMart.mkScoredBank price) (JioMart.bankOf items) = some prs ∧
    prs.length = (JioMart.bankOf items).length ∧
    out = JioMart.withRanks 1 (sortPairsDesc prs) ++
      (JioMart.otherOf items).map (JioMart.mkOther price) ∧
    (out.take prs.length).map (fun r => r.rank) =
      (List.range' 1 prs.length).map some ∧
    List.Chain' (fun a b : JioMart.RankedOffer => b.score.getD 0 ≤ a.score.getD 0)
      (out.take prs.length) ∧
    (∀ r ∈ out.take prs.length, ∃ q, r.score = some q) ∧
    (∀ q : ℚ, (sortPairsDesc prs).filter (fun p => p.1 == q) =
      prs.filter (fun p => p.1 == q)) ∧
    out.drop prs.length = (JioMart.otherOf items).map (JioMart.mkOther price) ∧
    (∀ r ∈ out.drop prs.length, r.rank = none ∧ r.score = none)

/-- C6: every successful Croma or JioMart `rank_offers` call returns the
bank offers first — stably sorted by descending score with ranks 1..N
assigned in order — followed by the other offers in their original order
with rank and score absent. -/
theorem claim6_rank_structure :
    ∀ (items : List RawItem) (price : ℚ),
      (∀ out : List Croma.RankedOffer,
        Croma.rank_offers items price = some out →
        Croma.rankedStructure items price out) ∧
      (∀ out : List JioMart.RankedOffer,
        JioMart.rank_offers items price = some out →
        JioMart.rankedStructure items price out) := by
  intro items price
  constructor
  · intro out h
    unfold Croma.rank_offers at h
    cases hM : mapMO (Croma.mkScoredBank price) (Croma.bankOf items) with
    | none => rw [hM] at h; exact absurd h (by simp)
    | some prs =>
      rw [hM] at h
      simp only [Option.some.injEq] at h
      subst h
      have hscores : ∀ p ∈ sortPairsDesc prs, (p.2).score = some p.1 := by
        intro p hp
        obtain ⟨o, _, hmk⟩ := mapMO_mem hM p (mem_sortPairsDesc.mp hp)
        exact Croma.mkScoredBank_score hmk
      have hAlen : (Croma.withRanks 1 (sortPairsDesc prs)).length = prs.length := by
        rw [Croma.croma_length_withRanks, length_sortPairsDesc]
      have htake : (Croma.withRanks 1 (sortPairsDesc prs) ++
          (Croma.otherOf items).map (Croma.mkOther price)).take prs.length =
          Croma.withRanks 1 (sortPairsDesc prs) := by
        rw [← hAlen, List.take_left]
      have hdrop : (Croma.withRanks 1 (sortPairsDesc prs) ++
          (Croma.otherOf items).map (Croma.mkOther price)).drop prs.length =
          (Croma.otherOf items).map (Croma.mkOther price) := by
        rw [← hAlen, List.drop_left]
      refine ⟨prs, hM, mapMO_length hM, rfl, ?_, ?_, ?_, ?_, hdrop, ?_⟩
      · rw [htake, Croma.map_rank_withRanks, length_sortPairsDesc]
      · rw [htake]
        exact Croma.chain_withRanks 1 hscores (chain'_sortPairsDesc prs)
      · rw [htake]
        exact Croma.score_withRanks hscores
      · exact fun q => filter_sortPairsDesc q prs
      · rw [hdrop]
        intro r hr
        obtain ⟨o, _, rfl⟩ := List.mem_map.mp hr
        exact ⟨rfl, rfl⟩
  · intro out h
    unfold JioMart.rank_offers at h
    cases hM : mapMO (JioMart.mkScoredBank price) (JioMart.bankOf items) with
    | none => rw [hM] at h; exact absurd h (by simp)
    | some prs =>
      rw [hM] at h
      simp only [Option.some.injEq] at h
      subst h
      have hscores : ∀ p ∈ sortPairsDesc prs, (p.2).score = some p.1 := by
        intro p hp
        obtain ⟨o, _, hmk⟩ := mapMO_mem hM p (mem_sortPairsDesc.mp hp)
        exact JioMart.jiomart_mkScoredBank_score hmk
      have hAlen : (JioMart.withRanks 1 (sortPairsDesc prs)).length = prs.length := by
        rw [JioMart.jiomart_length_withRanks, length_sortPairsDesc]
      have htake : (JioMart.withRanks 1 (sortPairsDesc prs) ++
          (JioMart.otherOf items).map (JioMart.mkOther price)).take prs.length =
          JioMart.withRanks 1 (sortPairsDesc prs) := by
        rw [← hAlen, List.take_left]
      have hdrop : (JioMart.withRanks 1 (sortPairsDesc prs) ++
          (JioMart.otherOf items).map (JioMart.mkOther price)).drop prs.length =
          (JioMart.otherOf items).map (JioMart.mkOther price) := by
        rw [← hAlen, List.drop_left]
      refine ⟨prs, hM, mapMO_length hM, rfl, ?_, ?_, ?_, ?_, hdrop, ?_⟩
      · rw [htake, JioMart.jiomart_map_rank_withRanks, length_sortPairsDesc]
      · rw [htake]
        exact JioMart.jiomart_chain_withRanks 1 hscores (chain'_sortPairsDesc prs)
      · rw [htake]
        exact JioMart.jiomart_score_withRanks hscores
      · exact fun q => filter_sortPairsDesc q prs
      · rw [hdrop]
        intro r hr
        obtain ⟨o, _, rfl⟩ := List.mem_map.mp hr
        exact ⟨rfl, rfl⟩

/-- C6 (witness): the structure theorem applied to the scenario-2 run. -/
theorem claim6_witness :
    Croma.rank_offers [.dict c1raw] 10000 = some [c1rec] ∧
      Croma.rankedStructure [.dict c1raw] 10000 [c1rec] :=
  ⟨c1_eval, (claim6_rank_structure [.dict c1raw] 10000).1 [c1rec] c1_eval⟩

/-- C8: at any nonnegative product price, every record returned by the Croma
or Flipkart `rank_offers` has a net effective price within `[0, price]`. -/
theorem claim8_net_bounds :
    ∀ (items : List RawItem) (price : ℚ), 0 ≤ price →
      (∀ out, Croma.rank_offers items price = some out →
        ∀ r ∈ out, 0 ≤ r.net_effective_price ∧ r.net_effective_price ≤ price) ∧
      (∀ out, Flipkart.rank_offers items price = some out →
        ∀ r ∈ out, 0 ≤ r.net_effective_price ∧ r.net_effective_price ≤ price) := by
  intro items price hpr
  constructor
  · intro out h r hr
    unfold Croma.rank_offers at h
    cases hM : mapMO (Croma.mkScoredBank price) (Croma.bankOf items) with
    | none => rw [hM] at h; exact absurd h (by simp)
    | some prs =>
      rw [hM] at h
      simp only [Option.some.injEq] at h
      subst h
      rcases List.mem_append.mp hr with hr | hr
      · obtain ⟨p, hp, m, rfl⟩ := Croma.croma_mem_withRanks hr
        obtain ⟨o, ho, hmk⟩ := mapMO_mem hM p (mem_sortPairsDesc.mp hp)
        obtain ⟨raw, rfl⟩ :=
          Croma.croma_mem_parsedOf (List.mem_of_mem_filter ho)
        have hnet := Croma.croma_mkScoredBank_net hmk
        have hbd := Croma.croma_netAndApplicable_bounds hpr
          (Croma.croma_parse_offer_amount_nonneg raw)
        constructor
        · show 0 ≤ (p.2).net_effective_price
          rw [hnet]; exact hbd.1
        · show (p.2).net_effective_price ≤ price
          rw [hnet]; exact hbd.2
      · obtain ⟨o, ho, rfl⟩ := List.mem_map.mp hr
        obtain ⟨raw, rfl⟩ :=
          Croma.croma_mem_parsedOf (List.mem_of_mem_filter ho)
        have hbd := Croma.croma_netAndApplicable_bounds hpr
          (Croma.croma_parse_offer_amount_nonneg raw)
        exact ⟨hbd.1, hbd.2⟩
  · intro out h r hr
    unfold Flipkart.rank_offers at h
    cases hM : mapMO (Flipkart.mkScoredBank price) (Flipkart.bankOf items) with
    | none => rw [hM] at h; exact absurd h (by simp)
    | some prs =>
      rw [hM] at h
      simp only [Option.some.injEq] at h
      subst h
      rcases List.mem_append.mp hr with hr | hr
      · obtain ⟨p, hp, m, rfl⟩ := Flipkart.flipkart_mem_withRanks hr
        obtain ⟨o, ho, hmk⟩ := mapMO_mem hM p (mem_sortPairsDesc.mp hp)
        obtain ⟨raw, rfl⟩ :=
          Flipkart.flipkart_mem_parsedOf (List.mem_of_mem_filter ho)
        have hnet := Flipkart.flipkart_mkScoredBank_net hmk
        have hbd := Flipkart.flipkart_netAndApplicable_bounds hpr
          (Flipkart.flipkart_parse_offer_amount_nonneg raw)
        constructor
        · show 0 ≤ (p.2).net_effective_price
          rw [hnet]; exact hbd.1
        · show (p.2).net_effective_price ≤ price
          rw [hnet]; exact hbd.2
      · obtain ⟨o, ho, rfl⟩ := List.mem_map.mp hr
        obtain ⟨raw, rfl⟩ :=
          Flipkart.flipkart_mem_parsedOf (List.mem_of_mem_filter ho)
        have hbd := Flipkart.flipkart_netAndApplicable_bounds hpr
          (Flipkart.flipkart_parse_offer_amount_nonneg raw)
        exact ⟨hbd.1, hbd.2⟩

/-- C8 (witness): the bounds applied to the scenario-2 run at price 10000. -/
theorem claim8_witness :
    (0 : ℚ) ≤ 10000 ∧
      ∀ r ∈ [c1rec], 0 ≤ r.net_effective_price ∧
        r.net_effective_price ≤ 10000 :=
  ⟨by norm_num,
    (claim8_net_bounds [.dict c1raw] 10000 (by norm_num)).1 [c1rec] c1_eval⟩

end Scrape

namespace Scrape

/-- C9: in every retailer variant a successful `rank_offers` returns exactly
one record per dict-shaped input item — non-dict items are dropped by the
`isinstance(offer, dict)` guard and every dict contributes exactly one
record, ranked or not. -/
theorem claim9_output_length :
    ∀ (items : List RawItem) (price : ℚ),
      (∀ out, Croma.rank_offers items price = some out →
        out.length = (items.filterMap RawItem.asDict).length) ∧
      (∀ out, Flipkart.rank_offers items price = some out →
        out.length = (items.filterMap RawItem.asDict).length) ∧
      (∀ out, JioMart.rank_offers items price = some out →
        out.length = (items.filterMap RawItem.asDict).length) ∧
      (∀ out, Amazon.rank_offers items price = some out →
        out.length = (items.filterMap RawItem.asDict).length) := by
  intro items price
  refine ⟨?_, ?_, ?_, ?_⟩
  · intro out h
    unfold Croma.rank_offers at h
    cases hM : mapMO (Croma.mkScoredBank price) (Croma.bankOf items) with
    | none => rw [hM] at h; exact absurd h (by simp)
    | some prs =>
      rw [hM] at h
      simp only [Option.some.injEq] at h
      have hpart : (Croma.bankOf items).length + (Croma.otherOf items).length
          = (Croma.parsedOf items).length := by
        unfold Croma.bankOf Croma.otherOf
        exact length_filter_partition (fun o : Croma.Offer => o.type == "Bank Offer") _
      have hplen : (Croma.parsedOf items).length
          = (items.filterMap RawItem.asDict).length := by
        unfold Croma.parsedOf
        exact List.length_map _ _
      rw [← h, List.length_append, Croma.croma_length_withRanks, length_sortPairsDesc,
        List.length_map, mapMO_length hM, hpart, hplen]
  · intro out h
    unfold Flipkart.rank_offers at h
    cases hM : mapMO (Flipkart.mkScoredBank price) (Flipkart.bankOf items) with
    | none => rw [hM] at h; exact absurd h (by simp)
    | some prs =>
      rw [hM] at h
      simp only [Option.some.injEq] at h
      have hpart : (Flipkart.bankOf items).length + (Flipkart.otherOf items).length
          = (Flipkart.parsedOf items).length := by
        unfold Flipkart.bankOf Flipkart.otherOf
        exact length_filter_partition (fun o : Flipkart.Offer => o.type == "Bank Offer") _
      have hplen : (Flipkart.parsedOf items).length
          = (items.filterMap RawItem.asDict).length := by
        unfold Flipkart.parsedOf
        exact List.length_map _ _
      rw [← h, List.length_append, Flipkart.flipkart_length_withRanks, length_sortPairsDesc,
        List.length_map, mapMO_length hM, hpart, hplen]
  · intro out h
    unfold JioMart.rank_offers at h
    cases hM : mapMO (JioMart.mkScoredBank price) (JioMart.bankOf items) with
    | none => rw [hM] at h; exact absurd h (by simp)
    | some prs =>
      rw [hM] at h
      simp only [Option.some.injEq] at h
      have hpart : (JioMart.bankOf items).length + (JioMart.otherOf items).length
          = (JioMart.parsedOf items).length := by
        unfold JioMart.bankOf JioMart.otherOf
        exact length_filter_partition (fun o : JioMart.Offer => o.type == "Bank Offer") _
      have hplen : (JioMart.parsedOf items).length
          = (items.filterMap RawItem.asDict).length := by
        unfold JioMart.parsedOf
        exact List.length_map _ _
      rw [← h, List.length_append, JioMart.jiomart_length_withRanks, length_sortPairsDesc,
        List.length_map, mapMO_length hM, hpart, hplen]
  · intro out h
    unfold Amazon.rank_offers at h
    cases hM : mapMO (Amazon.mkScoredBank price) (Amazon.bankOf items) with
    | none => rw [hM] at h; exact absurd h (by simp)
    | some prs =>
      rw [hM] at h
      simp only [Option.some.injEq] at h
      have hpart : (Amazon.bankOf items).length + (Amazon.otherOf items).length
          = (Amazon.parsedOf items).length := by
        unfold Amazon.bankOf Amazon.otherOf
        exact length_filter_partition (fun o : Amazon.Offer => o.type == "Bank Offer") _
      have hplen : (Amazon.parsedOf items).length
          = (items.filterMap RawItem.asDict).length := by
        unfold Amazon.parsedOf
        exact List.length_map _ _
      rw [← h, List.length_append, Amazon.amazon_length_withRanks, length_sortPairsDesc,
        List.length_map, mapMO_length hM, hpart, hplen]

/-- C9 (witness): the length law applied to a run whose single input is not
a dict and is therefore dropped. -/
theorem claim9_witness :
    Croma.rank_offers [RawItem.nondict] 5 = some [] ∧
      ([] : List Croma.RankedOffer).length =
        ([RawItem.nondict].filterMap RawItem.asDict).length :=
  ⟨rfl, (claim9_output_length [RawItem.nondict] 5).1 [] rfl⟩

/-- C10: in the Croma, JioMart and Flipkart variants the
percentage-with-cap tier of `extract_amount` is dead code: deleting it (the
`_nocap` functions) never changes the result, because every string matched
by a cap pattern is already matched by flat pattern 4
`(?:Save\s+)?(?:INR\s+|₹\s*)([\d,]+\.?\d*)`, which is tried first. -/
theorem claim10_cap_tier_dead :
    (∀ d : String, Croma.extract_amount d = Croma.extract_amount_nocap d) ∧
      (∀ d : String, JioMart.extract_amount d = JioMart.extract_amount_nocap d) ∧
      (∀ d : String, Flipkart.extract_amount d = Flipkart.extract_amount_nocap d) := by
  have hcroma : ∀ d : String,
      Croma.extract_amount d = Croma.extract_amount_nocap d := by
    intro d
    unfold Croma.extract_amount Croma.extract_amount_nocap
    cases hf : tryPatterns flatPatterns7 d.data with
    | some caps => rfl
    | none =>
      cases hc : tryPatterns capPatterns3 d.data with
      | none => rfl
      | some caps =>
        exfalso
        have hs : (tryPatterns capPatterns3 d.data).isSome := by
          rw [hc]; rfl
        have := flatTier_of_capTier3 hs
        rw [hf] at this
        exact Bool.noConfusion this
  refine ⟨hcroma, fun d => hcroma d, ?_⟩
  intro d
  unfold Flipkart.extract_amount Flipkart.extract_amount_nocap
  cases hf : tryPatterns flatPatterns7 d.data with
  | some caps => rfl
  | none =>
    cases hc : tryPatterns capPatterns2 d.data with
    | none => rfl
    | some caps =>
      exfalso
      have hs : (tryPatterns capPatterns2 d.data).isSome := by
        rw [hc]; rfl
      have := flatTier_of_capTier2 hs
      rw [hf] at this
      exact Bool.noConfusion this

end Scrape
